import Mathlib

/-!
# rom-properties: Xbox disc classification (libromdata/Console/XboxDisc.cpp)
# and the sparse disc reader (librpbase/disc/SparseDiscReader.hpp)

A shallow embedding of `XboxDisc::isRomSupported_static`, the `XboxDisc`
constructor, `XboxDisc::loadFieldData` and `XboxDisc::systemName`, and a model
of `SparseDiscReader` (`read`, `seek`, `tell`), with the properties stated
about them.  Bytes are natural numbers below 256; `time_t` and `int` are `Int`.
-/

set_option autoImplicit false

namespace LibRomData

/-! ## ISO-9660 PVD timestamp -/

/-- The 17-byte PVD date/time: sixteen text bytes `full` followed by the raw
`tz_offset` byte (an `int8_t` on disk). -/
structure ISO_PVD_DateTime_t where
  full : List Nat
  tz_offset : Nat
deriving DecidableEq, Repr

/-- The part of the ISO-9660 Primary Volume Descriptor that the Xbox check
reads: the creation time `btime`. -/
structure ISO_Primary_Volume_Descriptor where
  btime : ISO_PVD_DateTime_t
deriving DecidableEq, Repr

/-- Value of a raw byte read as `int8_t`. -/
def int8_of_byte (b : Nat) : Int :=
  if b % 256 < 128 then ((b % 256 : Nat) : Int) else ((b % 256 : Nat) : Int) - 256

/-- The type of `RomDataPrivate::pvd_time_to_unix_time(pvd_time, tz_offset)`:
sixteen text bytes and the signed offset to a `time_t`, `-1` on failure. -/
abbrev PvdTimeDecoder := List Nat → Int → Int

/-- Days from 1970-01-01 to the civil date `y`-`m`-`d` (proleptic Gregorian
calendar). -/
def days_from_civil (y m d : Int) : Int :=
  let y1 := if m ≤ 2 then y - 1 else y
  let era := y1 / 400
  let yoe := y1 - era * 400
  let mp := if m > 2 then m - 3 else m + 9
  let doy := (153 * mp + 2) / 5 + d - 1
  let doe := yoe * 365 + yoe / 4 - yoe / 100 + doy
  era * 146097 + doe - 719468

/-- Value of an ASCII decimal digit, `none` for any other byte. -/
def digit_val (b : Nat) : Option Nat :=
  if 48 ≤ b ∧ b ≤ 57 then some (b - 48) else none

/-- Value of a run of ASCII decimal digits, `none` if a byte is not a digit. -/
def decimal_field (bs : List Nat) : Option Nat :=
  bs.foldlM (fun acc b => (digit_val b).map (fun v => acc * 10 + v)) 0

/-- Modelled from the spec: `RomDataPrivate::pvd_time_to_unix_time`, whose
source is missing.  The sixteen text bytes are the decimal fields
`YYYYMMDDHHmmsscc`, the offset counts 15-minute units east of UTC (so `0xE4`
is -07:00 and `0xE0` is -08:00, as the comments of `xgd3_pvd_times` say); the
result is Unix epoch seconds, and malformed digits or a malformed offset give
the failure value `-1`. -/
def pvd_time_to_unix_time : PvdTimeDecoder := fun full tz_offset =>
  if full.length ≠ 16 then -1
  else if tz_offset < -48 ∨ 52 < tz_offset then -1
  else
    match decimal_field (full.take 4), decimal_field ((full.drop 4).take 2),
          decimal_field ((full.drop 6).take 2), decimal_field ((full.drop 8).take 2),
          decimal_field ((full.drop 10).take 2), decimal_field ((full.drop 12).take 2),
          decimal_field ((full.drop 14).take 2) with
    | some y, some mo, some d, some h, some mi, some s, some _ =>
      days_from_civil y mo d * 86400 + h * 3600 + mi * 60 + s - tz_offset * 900
    | _, _, _, _, _, _, _ => -1

/-- The nine bytes `memcmp` reads at `&pvd->btime.full[8]`: `full[8..15]`
followed by the `tz_offset` byte. -/
def btime_tail9 (pvd : ISO_Primary_Volume_Descriptor) : List Nat :=
  (pvd.btime.full.drop 8 ++ [pvd.btime.tz_offset]).take 9

/-! ## The XGD table -/

/-- One row of `xgd_tbl`: XGD type, manufacturing wave, creation time. -/
structure xgd_pvd_t where
  xgd : Nat
  wave : Nat
  btime : Int
deriving DecidableEq, Repr

/-- The static table of `isRomSupported_static`, terminator row included. -/
def xgd_tbl : List xgd_pvd_t :=
  [ ⟨1,  0, 1000334575⟩,
    ⟨2,  1, 1128716326⟩,
    ⟨2,  2, 1141708147⟩,
    ⟨2,  3, 1231977600⟩,
    ⟨2,  4, 1251158400⟩,
    ⟨2,  5, 1254787200⟩,
    ⟨2,  6, 1256860800⟩,
    ⟨2,  7, 1266796800⟩,
    ⟨2,  8, 1283644800⟩,
    ⟨2,  9, 1284595200⟩,
    ⟨2, 10, 1288310400⟩,
    ⟨2, 11, 1295395200⟩,
    ⟨2, 12, 1307923200⟩,
    ⟨2, 13, 1310515200⟩,
    ⟨2, 14, 1323302400⟩,
    ⟨2, 15, 1329868800⟩,
    ⟨2, 16, 1340323200⟩,
    ⟨2, 17, 1352332800⟩,
    ⟨2, 18, 1353283200⟩,
    ⟨2, 19, 1377561600⟩,
    ⟨2, 20, 1430092800⟩,
    ⟨0, 0, 0⟩ ]

/-- The loop `for (pXgd = xgd_tbl; pXgd->xgd != 0; pXgd++)`: walk the rows
from the current pointer, stop at the first row whose `xgd` is 0, return the
first row whose `btime` equals the creation time. -/
def xgd_tbl_scan (btime : Int) : List xgd_pvd_t → Option xgd_pvd_t
  | [] => none
  | e :: rest =>
    if e.xgd = 0 then none
    else if e.btime = btime then some e
    else xgd_tbl_scan btime rest

/-- Bytes of a C string literal (ASCII text). -/
def cstr (s : String) : List Nat := s.toList.map Char.toNat

/-- The array `xgd3_pvd_times[][9+1]` as it lies in memory: three rows of ten
bytes, each literal padded with zero bytes. -/
def xgd3_pvd_times : List Nat :=
  cstr "17000000" ++ [0xE4, 0] ++
  (cstr "16000000" ++ [0xE0, 0]) ++
  List.replicate 10 0

/-- The loop `for (const char *pXgd = &xgd3_pvd_times[0][0]; pXgd[0] != 0; pXgd++)`
with `memcmp(&pvd->btime.full[8], pXgd, 9)`: the argument list is the memory
from `pXgd` on; `pXgd` is a `const char *`, so one step advances one byte. -/
def xgd3_scan (tail9 : List Nat) : List Nat → Bool
  | [] => false
  | b :: rest =>
    if b = 0 then false
    else if (b :: rest).take 9 = tail9 then true
    else xgd3_scan tail9 rest

/-- `XboxDiscPrivate::DISC_UNKNOWN`. -/
def DISC_UNKNOWN : Int := -1
/-- `XboxDiscPrivate::DISC_TYPE_EXTRACTED`. -/
def DISC_TYPE_EXTRACTED : Int := 0
/-- `XboxDiscPrivate::DISC_TYPE_XGD1`. -/
def DISC_TYPE_XGD1 : Int := 1
/-- `XboxDiscPrivate::DISC_TYPE_XGD2`. -/
def DISC_TYPE_XGD2 : Int := 2
/-- `XboxDiscPrivate::DISC_TYPE_XGD3`. -/
def DISC_TYPE_XGD3 : Int := 3

/-- `XboxDisc::isRomSupported_static(pvd, pWave)`.  `pvd = none` is the null
pointer.  `pWave = none` is the null pointer and `some w` a pointer to a byte
holding `w`; the second component of the result is that byte afterwards.
The decoder `RomDataPrivate::pvd_time_to_unix_time` is declared outside this
unit and is the parameter `pvdTime`. -/
def isRomSupported_static (pvdTime : PvdTimeDecoder)
    (pvd : Option ISO_Primary_Volume_Descriptor) (pWave : Option Nat) :
    Int × Option Nat :=
  match pvd with
  | none => (-1, pWave)
  | some pvd =>
    let btime := pvdTime pvd.btime.full (int8_of_byte pvd.btime.tz_offset)
    if btime = -1 then (-1, pWave)
    else
      match xgd_tbl_scan btime xgd_tbl with
      | some e => ((e.xgd : Int), pWave.map (fun _ => e.wave))
      | none =>
        if xgd3_scan (btime_tail9 pvd) xgd3_pvd_times then
          (DISC_TYPE_XGD3, pWave.map (fun _ => 0))
        else (-1, pWave)

/-- A PVD holding the given timestamp text and raw offset byte. -/
def pvd_with_btime (text : String) (tz : Nat) : ISO_Primary_Volume_Descriptor :=
  ⟨⟨cstr text, tz⟩⟩

/-! ## The disc object: `XboxDiscPrivate`, the constructor, `loadFieldData` -/

/-- Constants and record layouts that `XboxDisc.cpp` takes from headers outside
this unit (`iso_structs.h`, `xdvdfs_structs.h`): addresses, sizes, the offset
of `btime` in the PVD and the 20 bytes of the `XDVDFS_MAGIC` literal that
`memcmp` compares. -/
structure DiscConsts where
  ISO_PVD_ADDRESS_2048 : Int
  sizeof_pvd : Nat
  offsetof_btime : Nat
  XDVDFS_MAGIC : List Nat
  XDVDFS_BLOCK_SIZE : Int
  XDVDFS_HEADER_LBA_OFFSET : Int
  XDVDFS_LBA_OFFSET_XGD1 : Int
  XDVDFS_LBA_OFFSET_XGD2 : Int
  XDVDFS_LBA_OFFSET_XGD3 : Int
  sizeof_xdvdfsHeader : Nat

/-- Modelled from the spec: the values of the constants in the missing headers
`iso_structs.h` and `xdvdfs_structs.h`, for a 2048-byte PVD sector at sector
16 and a 2048-byte XDVDFS header at block 32 of the XDVDFS area. -/
def disc_consts : DiscConsts where
  ISO_PVD_ADDRESS_2048 := 0x8000
  sizeof_pvd := 2048
  offsetof_btime := 813
  XDVDFS_MAGIC := cstr "MICROSOFT*XBOX*MEDIA"
  XDVDFS_BLOCK_SIZE := 2048
  XDVDFS_HEADER_LBA_OFFSET := 32
  XDVDFS_LBA_OFFSET_XGD1 := 0x30600
  XDVDFS_LBA_OFFSET_XGD2 := 0x1FB20
  XDVDFS_LBA_OFFSET_XGD3 := 0x4100
  sizeof_xdvdfsHeader := 2048

/-- The part of `IRpFile` the disc object uses, over read-only data: a read
is determined by its address and size.  `seekAndRead addr size` gives the
bytes that the call stores in the buffer; their number is its return value. -/
structure IRpFile where
  isOpen : Bool
  seekAndRead : Int → Nat → List Nat

/-- The PVD record as the bytes of a full read lay it out. -/
def pvd_of_bytes (c : DiscConsts) (bytes : List Nat) : ISO_Primary_Volume_Descriptor :=
  ⟨⟨(bytes.drop c.offsetof_btime).take 16, (bytes.drop (c.offsetof_btime + 16)).headD 0⟩⟩

/-- Little-endian value of a run of bytes. -/
def le_val (bs : List Nat) : Nat := bs.foldr (fun b acc => b % 256 + 256 * acc) 0

/-- Big-endian value of a run of bytes. -/
def be_val (bs : List Nat) : Nat := bs.foldl (fun acc b => acc * 256 + b % 256) 0

/-- Value of an integer field whose bytes are loaded in host byte order. -/
def host_val (bigEndian : Bool) (bs : List Nat) : Nat :=
  if bigEndian then be_val bs else le_val bs

/-- The `n` little-endian bytes of a value. -/
def le_bytes : Nat → Nat → List Nat
  | 0, _ => []
  | n + 1, x => x % 256 :: le_bytes n (x / 256)

/-- Byte swap of an `n`-byte value (`__swab32`, `__swab64`): the bytes of the
value in reverse order. -/
def bswap (n : Nat) (x : Nat) : Nat := be_val (le_bytes n x)

/-- Modelled from the spec: the macro `le32_to_cpu` of the missing
`byteswap.h`; little-endian fields are byte-swapped on a big-endian host and
never swapped on a little-endian host. -/
def le32_to_cpu (bigEndian : Bool) (x : Nat) : Nat :=
  if bigEndian then bswap 4 x else x

/-- Modelled from the spec: the macro `le64_to_cpu` of the missing
`byteswap.h`; little-endian fields are byte-swapped on a big-endian host and
never swapped on a little-endian host. -/
def le64_to_cpu (bigEndian : Bool) (x : Nat) : Nat :=
  if bigEndian then bswap 8 x else x

/-- Modelled from the spec: the packed `XDVDFS_Header` record of the missing
`xdvdfs_structs.h`: the 20-byte magic, `root_dir_sector` and `root_dir_size`
(32-bit), `timestamp` (64-bit), filler, and the 20-byte magic at the end. -/
structure XDVDFS_Header where
  magic : List Nat
  root_dir_sector : Nat
  root_dir_size : Nat
  timestamp : Nat
  unused : List Nat
  magic_footer : List Nat
deriving DecidableEq, Repr

/-- A buffer of `n` zero bytes (`memset`) after a read stored `bytes` at its
start. -/
def read_into (n : Nat) (bytes : List Nat) : List Nat :=
  (bytes ++ List.replicate (n - bytes.length) 0).take n

/-- The header record whose memory holds the bytes `buf`, integer fields in
host byte order. -/
def XDVDFS_Header.ofBuffer (c : DiscConsts) (bigEndian : Bool) (buf : List Nat) :
    XDVDFS_Header where
  magic := buf.take 20
  root_dir_sector := host_val bigEndian ((buf.drop 20).take 4)
  root_dir_size := host_val bigEndian ((buf.drop 24).take 4)
  timestamp := host_val bigEndian ((buf.drop 28).take 8)
  unused := (buf.drop 36).take (c.sizeof_xdvdfsHeader - 56)
  magic_footer := (buf.drop (c.sizeof_xdvdfsHeader - 20)).take 20

/-- One field of a `RomFields` set: a string field or a date/time field with
its `RFT_DATETIME_HAS_DATE` and `RFT_DATETIME_HAS_TIME` flags. -/
inductive RomField where
  | string (name value : String)
  | dateTime (name : String) (value : Int) (has_date has_time : Bool)
deriving DecidableEq, Repr

/-- The part of `RomFields` that `loadFieldData` touches: the name of tab 0
and the fields in the order they were added. -/
structure RomFields where
  tabName0 : Option String
  fields : List RomField
deriving DecidableEq, Repr

/-- The state of `XboxDiscPrivate`, with the members `file`, `isValid` and
`fields` of its base class. -/
structure XboxDiscPrivate where
  file : Option IRpFile
  isValid : Bool
  fields : RomFields
  discType : Int
  wave : Nat
  xdvdfs_addr : Int
  xdvdfsHeader : XDVDFS_Header

/-- `XboxDiscPrivate::XboxDiscPrivate`: disc type unknown, wave 0, address 0,
header cleared; the base class holds the file reference (`none` when it could
not be taken), no fields, and is not valid. -/
def XboxDiscPrivate.init (c : DiscConsts) (bigEndian : Bool) (file : Option IRpFile) :
    XboxDiscPrivate where
  file := file
  isValid := false
  fields := ⟨none, []⟩
  discType := DISC_UNKNOWN
  wave := 0
  xdvdfs_addr := 0
  xdvdfsHeader :=
    XDVDFS_Header.ofBuffer c bigEndian (List.replicate c.sizeof_xdvdfsHeader 0)

/-- The `switch (d->discType)` of the constructor: the XDVDFS starting
address for a classification result. -/
def xdvdfs_addr_of (c : DiscConsts) (discType : Int) : Int :=
  if discType = DISC_TYPE_XGD1 then c.XDVDFS_LBA_OFFSET_XGD1 * c.XDVDFS_BLOCK_SIZE
  else if discType = DISC_TYPE_XGD2 then c.XDVDFS_LBA_OFFSET_XGD2 * c.XDVDFS_BLOCK_SIZE
  else if discType = DISC_TYPE_XGD3 then c.XDVDFS_LBA_OFFSET_XGD3 * c.XDVDFS_BLOCK_SIZE
  else 0

/-- `XboxDisc::XboxDisc(IRpFile *file)`: the private state when the
constructor returns.  `file` is the reference the base class took. -/
def XboxDisc (c : DiscConsts) (pvdTime : PvdTimeDecoder) (bigEndian : Bool)
    (file : Option IRpFile) : XboxDiscPrivate :=
  let d := XboxDiscPrivate.init c bigEndian file
  match d.file with
  | none => d
  | some f =>
    let pvd := f.seekAndRead c.ISO_PVD_ADDRESS_2048 c.sizeof_pvd
    if pvd.length ≠ c.sizeof_pvd then { d with file := none }
    else
      let r := isRomSupported_static pvdTime (some (pvd_of_bytes c pvd)) (some d.wave)
      let d := { d with discType := r.1, wave := r.2.getD d.wave }
      let d := { d with xdvdfs_addr := xdvdfs_addr_of c d.discType }
      let hdr := f.seekAndRead
        (d.xdvdfs_addr + c.XDVDFS_HEADER_LBA_OFFSET * c.XDVDFS_BLOCK_SIZE)
        c.sizeof_xdvdfsHeader
      let d := { d with xdvdfsHeader :=
        XDVDFS_Header.ofBuffer c bigEndian (read_into c.sizeof_xdvdfsHeader hdr) }
      if hdr.length ≠ c.sizeof_xdvdfsHeader then { d with file := none }
      else if d.xdvdfsHeader.magic ≠ c.XDVDFS_MAGIC
          ∨ d.xdvdfsHeader.magic_footer ≠ c.XDVDFS_MAGIC then
        { d with file := none }
      else
        let d := if d.discType ≤ DISC_UNKNOWN then
          { d with discType := DISC_TYPE_EXTRACTED } else d
        let d := if bigEndian then
          { d with xdvdfsHeader :=
            { d.xdvdfsHeader with
              root_dir_sector := le32_to_cpu bigEndian d.xdvdfsHeader.root_dir_sector
              root_dir_size := le32_to_cpu bigEndian d.xdvdfsHeader.root_dir_size
              timestamp := le64_to_cpu bigEndian d.xdvdfsHeader.timestamp } }
          else d
        { d with isValid := true }

/-- The errno value `EBADF`. -/
def EBADF : Int := 9

/-- The errno value `EIO`. -/
def EIO : Int := 5

/-- `FILETIME_1970`: the FILETIME of 1970-01-01 00:00:00 UTC. -/
def FILETIME_1970 : Nat := 116444736000000000

/-- `HECTONANOSEC_PER_SEC`. -/
def HECTONANOSEC_PER_SEC : Nat := 10000000

/-- The Unix time `loadFieldData` computes from the header timestamp: the
subtraction and the division are done in `uint64_t`. -/
def filetime_to_unix (timestamp : Nat) : Int :=
  (((timestamp % 2 ^ 64 + 2 ^ 64 - FILETIME_1970) % 2 ^ 64 / HECTONANOSEC_PER_SEC : Nat) : Int)

/-- The string field `loadFieldData` adds for the disc type. -/
def disc_type_field (discType : Int) (wave : Nat) : RomField :=
  if discType = DISC_TYPE_EXTRACTED then RomField.string "Disc Type" "Extracted XDVDFS"
  else if discType = DISC_TYPE_XGD1 then RomField.string "Disc Type" "Xbox Game Disc 1"
  else if discType = DISC_TYPE_XGD2 then
    RomField.string "Disc Type" ("Xbox Game Disc 2 (Wave " ++ toString wave ++ ")")
  else if discType = DISC_TYPE_XGD3 then RomField.string "Disc Type" "Xbox Game Disc 3"
  else RomField.string "Disc Type" ("Unknown (" ++ toString wave ++ ")")

/-- `XboxDisc::loadFieldData`: the return value and the state afterwards.
`isoFields f` stands for the `ISO` object made over the file: `none` when it
is not open, else its fields. -/
def loadFieldData (isoFields : IRpFile → Option (List RomField)) (d : XboxDiscPrivate) :
    Int × XboxDiscPrivate :=
  if ¬ d.fields.fields.isEmpty then (0, d)
  else
    match d.file with
    | none => (- EBADF, d)
    | some f =>
      if ¬ f.isOpen then (- EBADF, d)
      else if ¬ d.isValid ∨ d.discType < 0 then (- EIO, d)
      else
        let tab := if d.discType ≥ DISC_TYPE_XGD2 then "Xbox 360" else "Xbox"
        let fs := d.fields.fields ++
          [disc_type_field d.discType d.wave,
           RomField.dateTime "Timestamp" (filetime_to_unix d.xdvdfsHeader.timestamp) true true]
        let fs := if d.discType ≥ DISC_TYPE_XGD1 then
            match isoFields f with
            | some extra => fs ++ extra
            | none => fs
          else fs
        ((fs.length : Int), { d with fields := ⟨some tab, fs⟩ })

/-- A stream that holds the given byte runs at the given addresses and
nothing elsewhere: a read at a listed address gives up to `size` bytes of the
run, any other read gives no bytes. -/
def IRpFile.ofSegments (segs : List (Int × List Nat)) : IRpFile where
  isOpen := true
  seekAndRead := fun addr size =>
    match segs.find? (fun sg => sg.1 == addr) with
    | some sg => sg.2.take size
    | none => []

/-- A 2048-byte PVD sector that is zero except for the 17-byte creation time. -/
def pvd_sector (text : String) (tz : Nat) : List Nat :=
  List.replicate 813 0 ++ cstr text ++ [tz] ++ List.replicate 1218 0

/-- A 2048-byte XDVDFS header block with the given magic copies and zero
fields. -/
def xdvdfs_block (magic footer : String) : List Nat :=
  cstr magic ++ List.replicate 2008 0 ++ cstr footer

/-- The bytes the constructor obtains from its read of the PVD. -/
def XboxDisc_pvdRead (c : DiscConsts) (f : IRpFile) : List Nat :=
  f.seekAndRead c.ISO_PVD_ADDRESS_2048 c.sizeof_pvd

/-- The value `isRomSupported_static` returns to the constructor for the PVD
of a stream. -/
def XboxDisc_pvdType (c : DiscConsts) (pvdTime : PvdTimeDecoder) (f : IRpFile) : Int :=
  (isRomSupported_static pvdTime (some (pvd_of_bytes c (XboxDisc_pvdRead c f))) (some 0)).1

/-- The bytes the constructor obtains from its read of the XDVDFS header. -/
def XboxDisc_hdrRead (c : DiscConsts) (pvdTime : PvdTimeDecoder) (f : IRpFile) : List Nat :=
  f.seekAndRead
    (xdvdfs_addr_of c (XboxDisc_pvdType c pvdTime f)
      + c.XDVDFS_HEADER_LBA_OFFSET * c.XDVDFS_BLOCK_SIZE)
    c.sizeof_xdvdfsHeader

/-- The magic at the start of a header block as read from the stream. -/
def hdr_magic (hdr : List Nat) : List Nat := hdr.take 20

/-- The magic at the end of a header block as read from the stream. -/
def hdr_magic_footer (c : DiscConsts) (hdr : List Nat) : List Nat :=
  (hdr.drop (c.sizeof_xdvdfsHeader - 20)).take 20

/-- An XGD1 disc image whose XDVDFS header has a damaged magic footer. -/
def xgd1_bad_footer : IRpFile :=
  IRpFile.ofSegments
    [(0x8000, pvd_sector "2001091310425500" 48),
     (0x30600 * 2048 + 32 * 2048, xdvdfs_block "MICROSOFT*XBOX*MEDIA" "MICROSOFT*XBOX*MEDIX")]

/-- An extracted XDVDFS image: a blank sector where a PVD would be, and the
XDVDFS header at block 32. -/
def extracted_xdvdfs : IRpFile :=
  IRpFile.ofSegments
    [(0x8000, List.replicate 2048 0),
     (32 * 2048, xdvdfs_block "MICROSOFT*XBOX*MEDIA" "MICROSOFT*XBOX*MEDIA")]

/-- An open stream that holds no data: every read is short. -/
def empty_stream : IRpFile := IRpFile.ofSegments []

/-- An XGD1 disc image cut off inside the XDVDFS header: the PVD sector is
there, the header read gets 100 bytes. -/
def xgd1_truncated : IRpFile :=
  IRpFile.ofSegments
    [(0x8000, pvd_sector "2001091310425500" 48),
     (0x30600 * 2048 + 32 * 2048, (xdvdfs_block "MICROSOFT*XBOX*MEDIA" "").take 100)]

/-- The creation time the classifier computes for a PVD. -/
def pvd_btime (pvdTime : PvdTimeDecoder) (pvd : ISO_Primary_Volume_Descriptor) : Int :=
  pvdTime pvd.btime.full (int8_of_byte pvd.btime.tz_offset)

/-- An epoch is listed in the XGD table: some row before the terminator
carries it. -/
def in_xgd_tbl (btime : Int) : Prop :=
  ∃ e ∈ xgd_tbl, e.xgd ≠ 0 ∧ e.btime = btime

/-- The rows of `xgd_tbl` that the lookup loop visits: those before the
terminator row. -/
def xgd_rows : List xgd_pvd_t := xgd_tbl.takeWhile (fun e => e.xgd != 0)

/-- The terminator row `{0, 0, 0}` of `xgd_tbl`. -/
def xgd_terminator : xgd_pvd_t := ⟨0, 0, 0⟩

/-- Binary search by epoch over rows sorted by `btime`, the alternative the
table's TODO names; `fuel` bounds the number of halvings of `[lo, hi)`. -/
def xgd_bsearch_aux (rows : List xgd_pvd_t) (btime : Int) :
    Nat → Nat → Nat → Option xgd_pvd_t
  | 0, _, _ => none
  | fuel + 1, lo, hi =>
    if lo < hi then
      match rows[(lo + hi) / 2]? with
      | none => none
      | some e =>
        if e.btime = btime then some e
        else if e.btime < btime then xgd_bsearch_aux rows btime fuel ((lo + hi) / 2 + 1) hi
        else xgd_bsearch_aux rows btime fuel lo ((lo + hi) / 2)
    else none

/-- Binary search of the XGD rows for an epoch. -/
def xgd_bsearch (btime : Int) : Option xgd_pvd_t :=
  xgd_bsearch_aux xgd_rows btime xgd_rows.length 0 xgd_rows.length

instance (btime : Int) : Decidable (in_xgd_tbl btime) := by
  unfold in_xgd_tbl; infer_instance

/-- The first XGD3 pattern, `"17000000\xE4"`: 17:00:00.00 at -07:00. -/
def xgd3_pattern_17 : List Nat := cstr "17000000" ++ [0xE4]

/-- The second XGD3 pattern, `"16000000\xE0"`: 16:00:00.00 at -08:00. -/
def xgd3_pattern_16 : List Nat := cstr "16000000" ++ [0xE0]

/-- The nine bytes that start one byte into `xgd3_pvd_times`: the text
`"7000000"`, the byte `0xE4` and the terminating zero of the first row. -/
def xgd3_window_1 : List Nat := cstr "7000000" ++ [0xE4, 0]

/-- The nine-byte windows of `xgd3_pvd_times` that the XGD3 loop compares:
those that start at byte offsets 0 to 8. -/
def xgd3_windows : List (List Nat) :=
  (List.range 9).map (fun i => (xgd3_pvd_times.drop i).take 9)

/-! ## Header decoding, re-encoding and the system name -/

/-- The block `#if SYS_BYTEORDER == SYS_BIG_ENDIAN ... #endif` of the
constructor: on a big-endian host the three integer fields go through
`le32_to_cpu` / `le64_to_cpu`; on a little-endian host the block is not
compiled. -/
def XDVDFS_Header.normalise (bigEndian : Bool) (h : XDVDFS_Header) : XDVDFS_Header :=
  if bigEndian then
    { h with
      root_dir_sector := le32_to_cpu bigEndian h.root_dir_sector
      root_dir_size := le32_to_cpu bigEndian h.root_dir_size
      timestamp := le64_to_cpu bigEndian h.timestamp }
  else h

/-- Decoding of a header byte record as the constructor does it: the load of
the record in host byte order followed by the normalisation. -/
def XDVDFS_Header.decode (c : DiscConsts) (bigEndian : Bool) (buf : List Nat) :
    XDVDFS_Header :=
  XDVDFS_Header.normalise bigEndian (XDVDFS_Header.ofBuffer c bigEndian buf)

/-- Re-encoding of decoded header fields as an on-disk record: the text
buffers as they are, the integer fields as little-endian bytes. -/
def XDVDFS_Header.encode_le (h : XDVDFS_Header) : List Nat :=
  h.magic ++ le_bytes 4 h.root_dir_sector ++ le_bytes 4 h.root_dir_size
    ++ le_bytes 8 h.timestamp ++ h.unused ++ h.magic_footer

/-- `SYSNAME_TYPE_MASK`, which the `static_assert` of `systemName` fixes to 3. -/
def SYSNAME_TYPE_MASK : Nat := 3

/-- The array `sysNames_X360` of `systemName`; `none` is `nullptr`. -/
def sysNames_X360 : List (Option String) :=
  [some "Microsoft Xbox 360", some "Xbox 360", some "X360", none]

/-- The array `sysNames_Xbox` of `systemName`; `none` is `nullptr`. -/
def sysNames_Xbox : List (Option String) :=
  [some "Microsoft Xbox", some "Xbox", some "Xbox", none]

/-- `XboxDisc::systemName(type)`; `none` is `nullptr`.  The inline function
`isSystemNameTypeValid` is declared outside this unit and is a parameter. -/
def systemName (isSystemNameTypeValid : Nat → Bool) (d : XboxDiscPrivate) (type : Nat) :
    Option String :=
  if ¬ d.isValid ∨ ¬ isSystemNameTypeValid type then none
  else if d.discType ≥ DISC_TYPE_XGD2 then
    (sysNames_X360[type &&& SYSNAME_TYPE_MASK]?).join
  else
    (sysNames_Xbox[type &&& SYSNAME_TYPE_MASK]?).join

/-- The state after `k` calls of `loadFieldData` in a row. -/
def loadFieldData_repeat (isoFields : IRpFile → Option (List RomField)) :
    Nat → XboxDiscPrivate → XboxDiscPrivate
  | 0, d => d
  | k + 1, d => loadFieldData_repeat isoFields k (loadFieldData isoFields d).2

/-- A header block with the given integer fields in little-endian order
between two correct magic copies, 2048 bytes. -/
def xdvdfs_block_with (root_dir_sector root_dir_size timestamp : Nat) : List Nat :=
  cstr "MICROSOFT*XBOX*MEDIA" ++ le_bytes 4 root_dir_sector ++ le_bytes 4 root_dir_size
    ++ le_bytes 8 timestamp ++ List.replicate 1992 0 ++ cstr "MICROSOFT*XBOX*MEDIA"

/-- An XGD2 wave 1 disc image whose header has root directory sector
0x00010203, size 0x1000 and the FILETIME of 2005-10-07 20:18:46 UTC. -/
def xgd2_image : IRpFile :=
  IRpFile.ofSegments
    [(0x8000, pvd_sector "2005100712184600" 0xE0),
     (0x1FB20 * 2048 + 32 * 2048,
      xdvdfs_block_with 0x00010203 0x1000 (116444736000000000 + 10000000 * 1128716326))]

/-! ## SparseDiscReader (librpbase/disc/SparseDiscReader.hpp) -/

/-- Modelled from the spec: the state of a `SparseDiscReader`, whose private
class and `SparseDiscReader.cpp` are missing (only the declarations of
`SparseDiscReader.hpp` are there): the backing stream, the block size, the
logical size, the position, and the block map `getPhysBlockAddr`, where 0
marks a sparse hole and -1 an invalid block index. -/
structure SparseDiscReader where
  file : IRpFile
  block_size : Nat
  disc_size : Nat
  pos : Nat
  getPhysBlockAddr : Nat → Int

/-- One block touched by a read: the position and the number of bytes still
requested when the block was reached, the block index, the bytes produced
for the block, and the backing-stream read made for it (address and size),
`none` if the stream was not touched. -/
structure BlockStep where
  pos : Nat
  remaining : Nat
  blockIdx : Nat
  data : List Nat
  access : Option (Int × Nat)
deriving DecidableEq, Repr

/-- Modelled from the spec: `SparseDiscReader::readBlock(blockIdx, ptr, pos,
size)`, whose body is missing: look up the physical address; 0 zero-fills
`size` bytes without touching the backing stream; -1 is the invalid block
index (`none`, the return value -1); any other address reads `size` bytes at
`physAddr + pos` from the backing stream. -/
def SparseDiscReader.readBlock (r : SparseDiscReader) (blockIdx pos size : Nat) :
    Option (List Nat × Option (Int × Nat)) :=
  if r.getPhysBlockAddr blockIdx = 0 then some (List.replicate size 0, none)
  else if r.getPhysBlockAddr blockIdx = -1 then none
  else
    some ((r.file.seekAndRead (r.getPhysBlockAddr blockIdx + (pos : Int)) size).take size,
          some (r.getPhysBlockAddr blockIdx + (pos : Int), size))

/-- Modelled from the spec: the loop of `SparseDiscReader::read`, whose body is
missing.  For each block touched: `blockIndex = pos / blockSize`,
`inBlockOffset = pos % blockSize`, `chunk = min(blockSize - inBlockOffset,
remaining, bytes up to the logical size)`; a hole gives `chunk` zero bytes, an
invalid block stops the read, any other block is read from the backing
stream; the position advances by the bytes produced and a short block read
stops the read.  A position at or after the logical size produces nothing.
`fuel` bounds the number of blocks; `remaining` blocks always suffice. -/
def SparseDiscReader.readLoop : Nat → SparseDiscReader → Nat → List BlockStep × SparseDiscReader
  | 0, r, _ => ([], r)
  | fuel + 1, r, remaining =>
    if remaining = 0 ∨ r.disc_size ≤ r.pos ∨ r.block_size = 0 then ([], r)
    else
      match r.readBlock (r.pos / r.block_size) (r.pos % r.block_size)
          (min (min (r.block_size - r.pos % r.block_size) remaining) (r.disc_size - r.pos)) with
      | none => ([], r)
      | some (data, access) =>
        if data.length
            < min (min (r.block_size - r.pos % r.block_size) remaining) (r.disc_size - r.pos) then
          ([⟨r.pos, remaining, r.pos / r.block_size, data, access⟩],
           { r with pos := r.pos + data.length })
        else
          (⟨r.pos, remaining, r.pos / r.block_size, data, access⟩
            :: (SparseDiscReader.readLoop fuel { r with pos := r.pos + data.length }
                  (remaining - data.length)).1,
           (SparseDiscReader.readLoop fuel { r with pos := r.pos + data.length }
                  (remaining - data.length)).2)

/-- Modelled from the spec: `SparseDiscReader::read(ptr, size)`: the blocks
touched, in order, and the reader afterwards. -/
def SparseDiscReader.read (r : SparseDiscReader) (size : Nat) :
    List BlockStep × SparseDiscReader :=
  r.readLoop size size

/-- The bytes a read stores in the buffer: those of its blocks, in order.  Its
length is the return value of `read`. -/
def steps_data : List BlockStep → List Nat
  | [] => []
  | s :: rest => s.data ++ steps_data rest

/-- The backing-stream reads a read makes, in order. -/
def steps_accesses (steps : List BlockStep) : List (Int × Nat) :=
  steps.filterMap (fun s => s.access)

/-- Modelled from the spec: `SparseDiscReader::seek(pos)`: sets the position;
fails (-1, nothing changed) if `pos < 0`; a position beyond the logical size
is accepted. -/
def SparseDiscReader.seek (r : SparseDiscReader) (pos : Int) : Int × SparseDiscReader :=
  if pos < 0 then (-1, r) else (0, { r with pos := pos.toNat })

/-- Modelled from the spec: `SparseDiscReader::tell()`: the position. -/
def SparseDiscReader.tell (r : SparseDiscReader) : Int := (r.pos : Int)

/-- Modelled from the spec: `SparseDiscReader::size()`: the logical size. -/
def SparseDiscReader.size (r : SparseDiscReader) : Int := (r.disc_size : Int)

/-- A reader with 8-byte blocks and logical size 10 whose blocks are all
holes, standing at position 8. -/
def hole_reader : SparseDiscReader where
  file := empty_stream
  block_size := 8
  disc_size := 10
  pos := 8
  getPhysBlockAddr := fun _ => 0

/-- A reader with 8-byte blocks and logical size 32 at position 0: block 0 is
mapped to address 100, where the backing stream holds the bytes 1, 2, 3 and
then ends; every other block is invalid. -/
def truncated_reader : SparseDiscReader where
  file := IRpFile.ofSegments [(100, [1, 2, 3])]
  block_size := 8
  disc_size := 32
  pos := 0
  getPhysBlockAddr := fun b => if b = 0 then 100 else -1

/-- A stream over the given bytes, the first at address 0: a read gives the
bytes from the address on, up to `size` of them. -/
def IRpFile.ofData (data : List Nat) : IRpFile where
  isOpen := true
  seekAndRead := fun addr size =>
    if addr < 0 then [] else (data.drop addr.toNat).take size

/-- A reader with 4-byte blocks and logical size 16 at position 2: block 0 is
mapped to address 4, where the backing stream holds 10, 11, 12, 13, block 1
is a hole, block 2 and all later blocks are invalid. -/
def mapped_reader : SparseDiscReader where
  file := IRpFile.ofData [0, 0, 0, 0, 10, 11, 12, 13]
  block_size := 4
  disc_size := 16
  pos := 2
  getPhysBlockAddr := fun b => if b = 0 then 4 else if b = 1 then 0 else -1

/-! ## Calendar dates of the XGD table comments -/

/-- A local date and time of day with its offset from UTC in minutes, as the
comments of `xgd_tbl` write them. -/
structure CivilTime where
  year : Nat
  month : Nat
  day : Nat
  hour : Nat
  minute : Nat
  second : Nat
  utc_offset_minutes : Int
deriving DecidableEq, Repr

/-- Gregorian leap years. -/
def is_leap_year (y : Nat) : Bool :=
  (y % 4 == 0 && y % 100 != 0) || y % 400 == 0

/-- Days of month `m` (1..12) of year `y`. -/
def days_in_month (y m : Nat) : Nat :=
  if m = 2 then (if is_leap_year y then 29 else 28)
  else if m = 4 ∨ m = 6 ∨ m = 9 ∨ m = 11 then 30
  else 31

/-- Days from 1970-01-01 to the date `y`-`m`-`d` (1970 or later), counted year
by year and month by month. -/
def days_since_1970 (y m d : Nat) : Nat :=
  ((List.range (y - 1970)).map (fun i => if is_leap_year (1970 + i) then 366 else 365)).sum
    + ((List.range (m - 1)).map (fun i => days_in_month y (i + 1))).sum
    + (d - 1)

/-- Unix time of a local date and time: seconds since 1970-01-01 00:00:00 UTC. -/
def CivilTime.unix_time (t : CivilTime) : Int :=
  (days_since_1970 t.year t.month t.day : Int) * 86400 + t.hour * 3600 + t.minute * 60
    + t.second - t.utc_offset_minutes * 60

/-- The date, time and UTC offset in the comment of each row of `xgd_tbl`, in
table order. -/
def xgd_tbl_comments : List CivilTime :=
  [ ⟨2001,  9, 13, 10, 42, 55,  720⟩,
    ⟨2005, 10,  7, 12, 18, 46, -480⟩,
    ⟨2006,  3,  6, 21,  9,  7, -480⟩,
    ⟨2009,  1, 14, 16,  0,  0, -480⟩,
    ⟨2009,  8, 24, 17,  0,  0, -420⟩,
    ⟨2009, 10,  5, 17,  0,  0, -420⟩,
    ⟨2009, 10, 29, 17,  0,  0, -420⟩,
    ⟨2010,  2, 21, 16,  0,  0, -480⟩,
    ⟨2010,  9,  4, 17,  0,  0, -420⟩,
    ⟨2010,  9, 15, 17,  0,  0, -420⟩,
    ⟨2010, 10, 28, 17,  0,  0, -420⟩,
    ⟨2011,  1, 18, 16,  0,  0, -480⟩,
    ⟨2011,  6, 12, 17,  0,  0, -420⟩,
    ⟨2011,  7, 12, 17,  0,  0, -420⟩,
    ⟨2011, 12,  7, 16,  0,  0, -480⟩,
    ⟨2012,  2, 21, 16,  0,  0, -480⟩,
    ⟨2012,  6, 21, 17,  0,  0, -420⟩,
    ⟨2012, 11,  7, 16,  0,  0, -480⟩,
    ⟨2012, 11, 18, 16,  0,  0, -480⟩,
    ⟨2013,  8, 26, 17,  0,  0, -420⟩,
    ⟨2015,  4, 26, 17,  0,  0, -420⟩ ]

/-- The byte address of the constructor's header read for a classification
result. -/
def XboxDisc_hdrAddr (c : DiscConsts) (discType : Int) : Int :=
  xdvdfs_addr_of c discType + c.XDVDFS_HEADER_LBA_OFFSET * c.XDVDFS_BLOCK_SIZE

/-- What the constructor leaves in the object, the identity of the file
aside. -/
def XboxDiscPrivate.summary (d : XboxDiscPrivate) :
    Bool × Bool × Int × Nat × Int × XDVDFS_Header × RomFields :=
  (d.file.isSome, d.isValid, d.discType, d.wave, d.xdvdfs_addr, d.xdvdfsHeader, d.fields)

/-! ## SNES ROM header (snes_structs.h) -/

mutual
/-- A C type as the compiler lays it out in a packed record (no padding). -/
inductive CType where
  | scalar (size : Nat)
  | array (elem : CType) (count : Nat)
  | struct (members : Members)
  | union (members : Members)
/-- The members of a record in declaration order: name (empty for an
anonymous member), the address written in the comment of the member (if it has
one), and the type. -/
inductive Members where
  | nil
  | cons (name : String) (comment : Option Nat) (type : CType) (rest : Members)
end

/-- The type `uint8_t`. -/
def uint8_t : CType := .scalar 1
/-- The type `char`. -/
def char_t : CType := .scalar 1
/-- The type `uint16_t`. -/
def uint16_t : CType := .scalar 2
/-- The type `uint32_t`. -/
def uint32_t : CType := .scalar 4

/-- Member list from a list of declarations. -/
def Members.ofList : List (String × Option Nat × CType) → Members
  | [] => .nil
  | (n, c, t) :: r => .cons n c t (Members.ofList r)

mutual
/-- The `sizeof` of a packed type: members of a struct follow each other,
members of a union overlap. -/
def CType.sizeof : CType → Nat
  | .scalar n => n
  | .array e n => n * e.sizeof
  | .struct ms => ms.sum_sizes
  | .union ms => ms.max_sizes
/-- Sum of the sizes of the members. -/
def Members.sum_sizes : Members → Nat
  | .nil => 0
  | .cons _ _ t r => t.sizeof + r.sum_sizes
/-- Largest size among the members. -/
def Members.max_sizes : Members → Nat
  | .nil => 0
  | .cons _ _ t r => max t.sizeof r.max_sizes
end

mutual
/-- Every member of a type, nested ones included: dotted path, byte offset
from the start of the outermost record, commented address. -/
def CType.members_at : CType → String → Nat → List (String × Nat × Option Nat)
  | .scalar _, _, _ => []
  | .array _ _, _, _ => []
  | .struct ms, pre, off => ms.struct_at pre off
  | .union ms, pre, off => ms.union_at pre off
/-- Members of a packed struct: each starts where the one before it ends. -/
def Members.struct_at : Members → String → Nat → List (String × Nat × Option Nat)
  | .nil, _, _ => []
  | .cons n c t r, pre, off =>
    (pre ++ n, off, c)
      :: (t.members_at (if n = "" then pre else pre ++ n ++ ".") off
          ++ r.struct_at pre (off + t.sizeof))
/-- Members of a union: each starts at the start of the union. -/
def Members.union_at : Members → String → Nat → List (String × Nat × Option Nat)
  | .nil, _, _ => []
  | .cons n c t r, pre, off =>
    (pre ++ n, off, c)
      :: (t.members_at (if n = "" then pre else pre ++ n ++ ".") off
          ++ r.union_at pre off)
end

/-- The `snes` layout of the header union. -/
def SNES_RomHeader_snes : CType :=
  .struct (Members.ofList [
    ("ext", none, .struct (Members.ofList [
      ("new_publisher_code", some 0x7FB0, .array char_t 2),
      ("id4", some 0x7FB2, .array char_t 4),
      ("reserved", some 0x7FB6, .array uint8_t 6),
      ("exp_flash_size", some 0x7FBC, uint8_t),
      ("exp_ram_size", some 0x7FBD, uint8_t),
      ("special_version", some 0x7FBE, uint8_t),
      ("cart_type", some 0x7FBF, uint8_t)])),
    ("title", some 0x7FC0, .array char_t 21),
    ("rom_mapping", some 0x7FD5, uint8_t),
    ("rom_type", some 0x7FD6, uint8_t),
    ("rom_size", some 0x7FD7, uint8_t),
    ("sram_size", some 0x7FD8, uint8_t),
    ("destination_code", some 0x7FD9, uint8_t),
    ("old_publisher_code", some 0x7FDA, uint8_t),
    ("version", some 0x7FDB, uint8_t),
    ("checksum_complement", some 0x7FDC, uint16_t),
    ("checksum", some 0x7FDE, uint16_t)])

/-- The `bsx` layout of the header union. -/
def SNES_RomHeader_bsx : CType :=
  .struct (Members.ofList [
    ("ext", none, .struct (Members.ofList [
      ("new_publisher_code", some 0x7FB0, .array char_t 2),
      ("program_type", some 0x7FB2, uint32_t),
      ("reserved", some 0x7FB6, .array uint8_t 10)])),
    ("title", some 0x7FC0, .array char_t 16),
    ("block_alloc", some 0x7FD0, uint32_t),
    ("limited_starts", some 0x7FD4, uint16_t),
    ("date", none, .struct (Members.ofList [
      ("month", some 0x7FD6, uint8_t),
      ("day", some 0x7FD7, uint8_t)])),
    ("rom_mapping", some 0x7FD8, uint8_t),
    ("file_type", some 0x7FD9, uint8_t),
    ("old_publisher_code", some 0x7FDA, uint8_t),
    ("x7FDB", some 0x7FDB, uint8_t),
    ("checksum_complement", some 0x7FDC, uint16_t),
    ("checksum", some 0x7FDE, uint16_t)])

/-- The `vectors.native` table. -/
def SNES_RomHeader_native : CType :=
  .struct (Members.ofList [
    ("reserved", some 0x7FE0, .array uint8_t 4),
    ("cop", some 0x7FE4, uint16_t),
    ("brk", some 0x7FE6, uint16_t),
    ("abort", some 0x7FE8, uint16_t),
    ("nmi", some 0x7FEA, uint16_t),
    ("reset", some 0x7FEC, uint16_t),
    ("irq", some 0x7FEE, uint16_t)])

/-- The `vectors.emulation` table. -/
def SNES_RomHeader_emulation : CType :=
  .struct (Members.ofList [
    ("reserved1", some 0x7FF0, .array uint8_t 4),
    ("cop", some 0x7FF4, uint16_t),
    ("reserved2", some 0x7FF6, .array uint8_t 2),
    ("abort", some 0x7FF8, uint16_t),
    ("nmi", some 0x7FFA, uint16_t),
    ("res", some 0x7FFC, uint16_t),
    ("", none, .union (Members.ofList [
      ("irq", some 0x7FFE, uint16_t),
      ("brk", none, uint16_t)]))])

/-- The record `SNES_RomHeader`: an anonymous union of the two layouts,
followed by the vector tables. -/
def SNES_RomHeader : CType :=
  .struct (Members.ofList [
    ("", none, .union (Members.ofList [
      ("snes", none, SNES_RomHeader_snes),
      ("bsx", none, SNES_RomHeader_bsx)])),
    ("vectors", none, .struct (Members.ofList [
      ("native", none, SNES_RomHeader_native),
      ("emulation", none, SNES_RomHeader_emulation)]))])

/-- Base address of the header in a LoROM image, to which the comments of
the members refer. -/
def SNES_HEADER_BASE : Nat := 0x7FB0

/-- Byte offset of the member with the given dotted path. -/
def CType.offsetof (t : CType) (path : String) : Option Nat :=
  ((t.members_at "" 0).find? (fun m => m.1 == path)).map (fun m => m.2.1)

/-- Every commented member lies at its commented address. -/
def CType.comments_hold (t : CType) (base : Nat) : Bool :=
  (t.members_at "" 0).all (fun m =>
    match m.2.2 with
    | none => true
    | some a => a == base + m.2.1)

/-- Number of members that carry an address comment. -/
def CType.commented (t : CType) : Nat :=
  ((t.members_at "" 0).filter (fun m => m.2.2.isSome)).length

/-- The little-endian 16-bit member at a byte offset of a header image. -/
def SNES_RomHeader.read16 (hdr : List Nat) (off : Nat) : Nat :=
  le_val ((hdr.drop off).take 2)

/-- The member `checksum_complement` of a header image. -/
def SNES_RomHeader.checksum_complement (hdr : List Nat) : Nat :=
  SNES_RomHeader.read16 hdr 44

/-- The member `checksum` of a header image. -/
def SNES_RomHeader.checksum (hdr : List Nat) : Nat :=
  SNES_RomHeader.read16 hdr 46

/-- Modelled from the spec: the checksum validation of the SNES header (the
classifier SNES.cpp is not among the sources): a header is structurally
plausible when `checksum XOR checksum_complement` is `0xFFFF`. -/
def snes_checksum_valid (checksum checksum_complement : Nat) : Bool :=
  (checksum ^^^ checksum_complement) == 0xFFFF

/-- Modelled from the spec: the checksum validation applied to the two members
of an 80-byte header image. -/
def SNES_RomHeader.checksum_valid (hdr : List Nat) : Bool :=
  snes_checksum_valid (SNES_RomHeader.checksum hdr) (SNES_RomHeader.checksum_complement hdr)

/-- A header image that is zero except for the two checksum members. -/
def snes_header_with (checksum checksum_complement : Nat) : List Nat :=
  List.replicate 44 0 ++ le_bytes 2 checksum_complement ++ le_bytes 2 checksum
    ++ List.replicate 32 0

/-! ## Lemmas on the table scan -/


theorem xgd_tbl_scan_row :
    ∀ e ∈ xgd_tbl, e.xgd ≠ 0 → xgd_tbl_scan e.btime xgd_tbl = some e := by
  decide

theorem xgd_tbl_row_ne_fail : ∀ e ∈ xgd_tbl, e.btime ≠ -1 := by
  decide

theorem xgd_tbl_scan_some_mem (btime : Int) :
    ∀ (l : List xgd_pvd_t) (e : xgd_pvd_t),
      xgd_tbl_scan btime l = some e → e ∈ l ∧ e.xgd ≠ 0 ∧ e.btime = btime := by
  intro l
  induction l with
  | nil => intro e h; simp [xgd_tbl_scan] at h
  | cons a rest ih =>
    intro e h
    unfold xgd_tbl_scan at h
    by_cases h0 : a.xgd = 0
    · simp [h0] at h
    · by_cases hb : a.btime = btime
      · simp [h0, hb] at h
        subst h
        exact ⟨List.mem_cons_self _ _, h0, hb⟩
      · simp [h0, hb] at h
        obtain ⟨hm, hx, ht⟩ := ih e h
        exact ⟨List.mem_cons_of_mem _ hm, hx, ht⟩

theorem xgd_tbl_scan_none_of_absent (btime : Int) (h : ¬ in_xgd_tbl btime) :
    xgd_tbl_scan btime xgd_tbl = none := by
  cases hs : xgd_tbl_scan btime xgd_tbl with
  | none => rfl
  | some e =>
    obtain ⟨hm, hx, ht⟩ := xgd_tbl_scan_some_mem btime xgd_tbl e hs
    exact absurd ⟨e, hm, hx, ht⟩ h

theorem xgd3_scan_cons_nonzero (tail9 : List Nat) (b : Nat) (rest : List Nat) (hb : b ≠ 0) :
    xgd3_scan tail9 (b :: rest) = true
      ↔ (tail9 = (b :: rest).take 9 ∨ xgd3_scan tail9 rest = true) := by
  have e : xgd3_scan tail9 (b :: rest)
      = (if b = 0 then false
         else if (b :: rest).take 9 = tail9 then true else xgd3_scan tail9 rest) := rfl
  rw [e]
  simp only [hb, if_false]
  generalize (b :: rest).take 9 = w
  by_cases h : w = tail9
  · simp [h]
  · have h2 : ¬ tail9 = w := fun e => h e.symm
    simp [h, h2]

theorem xgd3_scan_cons_zero (tail9 : List Nat) (rest : List Nat) :
    xgd3_scan tail9 (0 :: rest) = false := by
  simp [xgd3_scan]

/-- The XGD3 loop succeeds exactly on the nine windows at offsets 0 to 8. -/
theorem xgd3_scan_iff_window (tail9 : List Nat) :
    xgd3_scan tail9 xgd3_pvd_times = true ↔ tail9 ∈ xgd3_windows := by
  have hw : xgd3_windows =
      [[49, 55, 48, 48, 48, 48, 48, 48, 228], [55, 48, 48, 48, 48, 48, 48, 228, 0],
       [48, 48, 48, 48, 48, 48, 228, 0, 49], [48, 48, 48, 48, 48, 228, 0, 49, 54],
       [48, 48, 48, 48, 228, 0, 49, 54, 48], [48, 48, 48, 228, 0, 49, 54, 48, 48],
       [48, 48, 228, 0, 49, 54, 48, 48, 48], [48, 228, 0, 49, 54, 48, 48, 48, 48],
       [228, 0, 49, 54, 48, 48, 48, 48, 48]] := by decide
  have ht : xgd3_pvd_times =
      [49, 55, 48, 48, 48, 48, 48, 48, 228, 0, 49, 54, 48, 48, 48, 48, 48, 48, 224, 0,
       0, 0, 0, 0, 0, 0, 0, 0, 0, 0] := by decide
  rw [hw, ht]
  rw [xgd3_scan_cons_nonzero _ _ _ (by decide), xgd3_scan_cons_nonzero _ _ _ (by decide),
    xgd3_scan_cons_nonzero _ _ _ (by decide), xgd3_scan_cons_nonzero _ _ _ (by decide),
    xgd3_scan_cons_nonzero _ _ _ (by decide), xgd3_scan_cons_nonzero _ _ _ (by decide),
    xgd3_scan_cons_nonzero _ _ _ (by decide), xgd3_scan_cons_nonzero _ _ _ (by decide),
    xgd3_scan_cons_nonzero _ _ _ (by decide), xgd3_scan_cons_zero]
  simp only [List.take, List.mem_cons, List.mem_singleton, List.not_mem_nil, or_false,
    Bool.false_eq_true]

/-- Without a table row for the epoch and with the nine bytes outside the
windows the XGD3 loop compares, the PVD is not an Xbox PVD. -/
theorem isRomSupported_static_not_xbox (pvdTime : PvdTimeDecoder)
    (pvd : ISO_Primary_Volume_Descriptor) (pWave : Option Nat)
    (habs : ¬ in_xgd_tbl (pvdTime pvd.btime.full (int8_of_byte pvd.btime.tz_offset)))
    (htail : btime_tail9 pvd ∉ xgd3_windows) :
    isRomSupported_static pvdTime (some pvd) pWave = (-1, pWave) := by
  have hscan := xgd_tbl_scan_none_of_absent _ habs
  have hx : xgd3_scan (btime_tail9 pvd) xgd3_pvd_times = false := by
    cases h : xgd3_scan (btime_tail9 pvd) xgd3_pvd_times with
    | false => rfl
    | true => exact absurd ((xgd3_scan_iff_window _).1 h) htail
  simp only [isRomSupported_static, hscan, hx]
  split <;> rfl

theorem xgd_tbl_eq_rows : xgd_tbl = xgd_rows ++ [xgd_terminator] := by
  decide

theorem xgd_rows_xgd_ne_zero : ∀ e ∈ xgd_rows, e.xgd ≠ 0 := by
  decide

theorem xgd_rows_btime_inj :
    ∀ e₁ ∈ xgd_rows, ∀ e₂ ∈ xgd_rows, e₁.btime = e₂.btime → e₁ = e₂ := by
  decide

theorem xgd_tbl_scan_rows : ∀ e ∈ xgd_rows, xgd_tbl_scan e.btime xgd_tbl = some e := by
  decide

theorem xgd_bsearch_rows : ∀ e ∈ xgd_rows, xgd_bsearch e.btime = some e := by
  decide

theorem xgd_bsearch_aux_some_mem (rows : List xgd_pvd_t) (btime : Int) :
    ∀ (fuel lo hi : Nat) (e : xgd_pvd_t),
      xgd_bsearch_aux rows btime fuel lo hi = some e → e ∈ rows ∧ e.btime = btime := by
  intro fuel
  induction fuel with
  | zero => intro lo hi e h; simp [xgd_bsearch_aux] at h
  | succ n ih =>
    intro lo hi e h
    unfold xgd_bsearch_aux at h
    by_cases hlt : lo < hi
    · simp only [hlt, if_true] at h
      cases hm : rows[(lo + hi) / 2]? with
      | none => simp [hm] at h
      | some a =>
        simp only [hm] at h
        by_cases hb : a.btime = btime
        · simp only [hb, if_true, Option.some.injEq] at h
          subst h
          exact ⟨List.getElem?_mem hm, hb⟩
        · simp only [hb, if_false] at h
          by_cases hl : a.btime < btime
          · simp only [hl, if_true] at h
            exact ih _ _ e h
          · simp only [hl, if_false] at h
            exact ih _ _ e h
    · simp [hlt] at h

/-- A scan of rows followed by a terminator finds a row with the epoch as
soon as one of the rows carries it. -/
theorem xgd_tbl_scan_finds (btime : Int) (t : List xgd_pvd_t) :
    ∀ (l : List xgd_pvd_t), (∀ x ∈ l, x.xgd ≠ 0) → (∃ e₀ ∈ l, e₀.btime = btime) →
      ∃ e, xgd_tbl_scan btime (l ++ t) = some e ∧ e ∈ l ∧ e.btime = btime := by
  intro l
  induction l with
  | nil => intro _ h; simp at h
  | cons a rest ih =>
    intro hnz hex
    have ha : a.xgd ≠ 0 := hnz a (List.mem_cons_self _ _)
    by_cases hb : a.btime = btime
    · exact ⟨a, by simp [xgd_tbl_scan, ha, hb], List.mem_cons_self _ _, hb⟩
    · obtain ⟨e₀, hm, he⟩ := hex
      have hm2 : e₀ ∈ rest := by
        rcases List.mem_cons.1 hm with h | h
        · exact absurd (h ▸ he) hb
        · exact h
      obtain ⟨e, hs, hmem, hbt⟩ :=
        ih (fun x hx => hnz x (List.mem_cons_of_mem _ hx)) ⟨e₀, hm2, he⟩
      exact ⟨e, by simp [xgd_tbl_scan, ha, hb, hs], List.mem_cons_of_mem _ hmem, hbt⟩

/-- A scan of rows followed by the terminator returns only rows. -/
theorem xgd_tbl_scan_some_mem_rows (btime : Int) (l : List xgd_pvd_t) (e : xgd_pvd_t)
    (h : xgd_tbl_scan btime (l ++ [xgd_terminator]) = some e) :
    e ∈ l ∧ e.btime = btime := by
  obtain ⟨hm, hx, hb⟩ := xgd_tbl_scan_some_mem btime _ e h
  rcases List.mem_append.1 hm with h1 | h1
  · exact ⟨h1, hb⟩
  · simp only [List.mem_singleton] at h1
    subst h1
    exact absurd rfl hx

/-! ## Lemmas on the constructor -/

theorem read_into_full (n : Nat) (bytes : List Nat) (h : bytes.length = n) :
    read_into n bytes = bytes := by
  subst h
  simp [read_into]

/-- A return value of -1 leaves the wave byte as it was. -/
theorem isRomSupported_static_fail_keeps_wave (pvdTime : PvdTimeDecoder)
    (pvd : Option ISO_Primary_Volume_Descriptor) (pWave : Option Nat)
    (h : (isRomSupported_static pvdTime pvd pWave).1 = -1) :
    (isRomSupported_static pvdTime pvd pWave).2 = pWave := by
  unfold isRomSupported_static at h ⊢
  cases pvd with
  | none => rfl
  | some pvd =>
    simp only at h ⊢
    split
    · rfl
    · rename_i hb
      simp only [hb, if_false] at h
      split
      · rename_i e he
        simp only [he] at h
        omega
      · rename_i he
        simp only [he] at h
        split
        · rename_i hx
          simp [hx, DISC_TYPE_XGD3] at h
        · rfl

/-- The return value does not depend on the byte `pWave` points to. -/
theorem isRomSupported_static_fst (pvdTime : PvdTimeDecoder)
    (pvd : Option ISO_Primary_Volume_Descriptor) (p q : Option Nat) :
    (isRomSupported_static pvdTime pvd p).1 = (isRomSupported_static pvdTime pvd q).1 := by
  unfold isRomSupported_static
  cases pvd with
  | none => rfl
  | some pvd =>
    simp only
    split
    · rfl
    · split
      · rfl
      · split <;> rfl

/-- The constructor on a stream whose PVD read is short. -/
theorem XboxDisc_pvd_short (c : DiscConsts) (pvdTime : PvdTimeDecoder) (bigEndian : Bool)
    (f : IRpFile) (h : (XboxDisc_pvdRead c f).length ≠ c.sizeof_pvd) :
    XboxDisc c pvdTime bigEndian (some f)
      = { XboxDiscPrivate.init c bigEndian (some f) with file := none } := by
  unfold XboxDisc_pvdRead at h
  simp [XboxDisc, XboxDiscPrivate.init, h]

/-- The constructor on a stream whose PVD read is full and whose header read
is short. -/
theorem XboxDisc_hdr_short (c : DiscConsts) (pvdTime : PvdTimeDecoder) (bigEndian : Bool)
    (f : IRpFile) (hp : (XboxDisc_pvdRead c f).length = c.sizeof_pvd)
    (hh : (XboxDisc_hdrRead c pvdTime f).length ≠ c.sizeof_xdvdfsHeader) :
    (XboxDisc c pvdTime bigEndian (some f)).isValid = false
    ∧ (XboxDisc c pvdTime bigEndian (some f)).file = none := by
  unfold XboxDisc_hdrRead XboxDisc_pvdType at hh
  unfold XboxDisc_pvdRead at hp hh
  simp [XboxDisc, XboxDiscPrivate.init, hp, hh]

/-- An object the constructor leaves not valid holds no file. -/
theorem XboxDisc_not_valid_released (c : DiscConsts) (pvdTime : PvdTimeDecoder)
    (bigEndian : Bool) (file : Option IRpFile)
    (hv : (XboxDisc c pvdTime bigEndian file).isValid = false) :
    (XboxDisc c pvdTime bigEndian file).file = none := by
  cases file with
  | none => simp [XboxDisc, XboxDiscPrivate.init]
  | some f =>
    by_cases hp : (XboxDisc_pvdRead c f).length = c.sizeof_pvd
    · by_cases hh : (XboxDisc_hdrRead c pvdTime f).length = c.sizeof_xdvdfsHeader
      · unfold XboxDisc_hdrRead XboxDisc_pvdType at hh
        unfold XboxDisc_pvdRead at hp hh
        simp only [XboxDisc, XboxDiscPrivate.init, hp, hh, ne_eq, not_true_eq_false,
          if_false] at hv ⊢
        split
        · rfl
        · rename_i hm
          simp [hm] at hv
      · exact (XboxDisc_hdr_short c pvdTime bigEndian f hp hh).2
    · rw [XboxDisc_pvd_short c pvdTime bigEndian f hp]

/-! ## Claims on `isRomSupported_static` -/

/-- Claim C1: when the creation time of a PVD decodes to the epoch of a row of
the XGD table, `isRomSupported_static` returns that row's generation and
stores that row's wave through `pWave` (when it is non-null); epoch
1000334575 gives generation 1 with wave 0, epoch 1128716326 gives generation
2 with wave 1. -/
theorem isRomSupported_static_table_row :
    (∀ (pvdTime : PvdTimeDecoder) (pvd : ISO_Primary_Volume_Descriptor)
        (pWave : Option Nat) (e : xgd_pvd_t),
        e ∈ xgd_tbl → e.xgd ≠ 0 → pvd_btime pvdTime pvd = e.btime →
        isRomSupported_static pvdTime (some pvd) pWave
          = ((e.xgd : Int), pWave.map (fun _ => e.wave)))
    ∧ (∀ (pvdTime : PvdTimeDecoder) (pvd : ISO_Primary_Volume_Descriptor) (w : Nat),
        pvd_btime pvdTime pvd = 1000334575 →
        isRomSupported_static pvdTime (some pvd) (some w) = (1, some 0))
    ∧ (∀ (pvdTime : PvdTimeDecoder) (pvd : ISO_Primary_Volume_Descriptor) (w : Nat),
        pvd_btime pvdTime pvd = 1128716326 →
        isRomSupported_static pvdTime (some pvd) (some w) = (2, some 1)) := by
  have key : ∀ (pvdTime : PvdTimeDecoder) (pvd : ISO_Primary_Volume_Descriptor)
      (pWave : Option Nat) (e : xgd_pvd_t),
      e ∈ xgd_tbl → e.xgd ≠ 0 → pvd_btime pvdTime pvd = e.btime →
      isRomSupported_static pvdTime (some pvd) pWave
        = ((e.xgd : Int), pWave.map (fun _ => e.wave)) := by
    intro pvdTime pvd pWave e hm hx hb
    unfold pvd_btime at hb
    simp only [isRomSupported_static, hb, xgd_tbl_row_ne_fail e hm, if_false,
      xgd_tbl_scan_row e hm hx]
  refine ⟨key, ?_, ?_⟩
  · intro pvdTime pvd w hb
    exact key pvdTime pvd (some w) ⟨1, 0, 1000334575⟩ (by decide) (by decide) hb
  · intro pvdTime pvd w hb
    exact key pvdTime pvd (some w) ⟨2, 1, 1128716326⟩ (by decide) (by decide) hb

/-- Witness for C1: the PVD timestamp of XGD2 wave 1, 2005-10-07 12:18:46.00
at -08:00, decodes to 1128716326 and classifies as generation 2, wave 1. -/
theorem isRomSupported_static_table_row_witness :
    pvd_btime pvd_time_to_unix_time (pvd_with_btime "2005100712184600" 0xE0) = 1128716326
    ∧ isRomSupported_static pvd_time_to_unix_time
        (some (pvd_with_btime "2005100712184600" 0xE0)) (some 9) = (2, some 1) :=
  ⟨by decide, isRomSupported_static_table_row.2.2 pvd_time_to_unix_time
      (pvd_with_btime "2005100712184600" 0xE0) 9 (by decide)⟩

/-- Claim C3: a PVD whose creation time decodes to an epoch that is not in the
XGD table and whose nine bytes from `btime.full[8]` are `"17000000"` followed
by `0xE4` is classified as XGD3 (return value 3) with wave 0 stored. -/
theorem isRomSupported_static_xgd3_17 (pvdTime : PvdTimeDecoder)
    (pvd : ISO_Primary_Volume_Descriptor) (pWave : Option Nat)
    (hdec : pvd_btime pvdTime pvd ≠ -1)
    (habs : ¬ in_xgd_tbl (pvd_btime pvdTime pvd))
    (htail : btime_tail9 pvd = xgd3_pattern_17) :
    isRomSupported_static pvdTime (some pvd) pWave = (3, pWave.map (fun _ => 0)) := by
  have hscan := xgd_tbl_scan_none_of_absent _ habs
  unfold pvd_btime at hdec hscan
  simp only [isRomSupported_static, hdec, if_false, hscan, htail]
  rfl

/-- Witness for C3: 2012-01-01 17:00:00.00 at -07:00 decodes to 1325462400,
which no table row carries, and is classified as XGD3 with wave 0. -/
theorem isRomSupported_static_xgd3_17_witness :
    pvd_btime pvd_time_to_unix_time (pvd_with_btime "2012010117000000" 0xE4) = 1325462400
    ∧ isRomSupported_static pvd_time_to_unix_time
        (some (pvd_with_btime "2012010117000000" 0xE4)) (some 9) = (3, some 0) :=
  ⟨by decide, isRomSupported_static_xgd3_17 pvd_time_to_unix_time
      (pvd_with_btime "2012010117000000" 0xE4) (some 9)
      (by decide) (by decide) (by decide)⟩

/-- Claim C4, what the code does: a PVD whose creation time is not in the XGD
table and whose nine bytes from `btime.full[8]` are `"16000000"` followed by
`0xE0` is rejected with -1 and `*pWave` untouched.  The scan pointer advances
one byte at a time and stops at the zero byte that ends the first row, so the
second row of `xgd3_pvd_times` is never compared. -/
theorem isRomSupported_static_xgd3_16_rejected (pvdTime : PvdTimeDecoder)
    (pvd : ISO_Primary_Volume_Descriptor) (pWave : Option Nat)
    (habs : ¬ in_xgd_tbl (pvd_btime pvdTime pvd))
    (htail : btime_tail9 pvd = xgd3_pattern_16) :
    isRomSupported_static pvdTime (some pvd) pWave = (-1, pWave) := by
  have hscan := xgd_tbl_scan_none_of_absent _ habs
  unfold pvd_btime at hscan
  simp only [isRomSupported_static, hscan, htail]
  split
  · rfl
  · rfl

/-- Witness for C4: 2012-01-01 16:00:00.00 at -08:00 decodes to 1325462400,
is not in the table, and is classified as not Xbox. -/
theorem isRomSupported_static_xgd3_16_rejected_witness :
    pvd_btime pvd_time_to_unix_time (pvd_with_btime "2012010116000000" 0xE0) = 1325462400
    ∧ isRomSupported_static pvd_time_to_unix_time
        (some (pvd_with_btime "2012010116000000" 0xE0)) (some 9) = (-1, some 9) :=
  ⟨by decide, isRomSupported_static_xgd3_16_rejected pvd_time_to_unix_time
      (pvd_with_btime "2012010116000000" 0xE0) (some 9) (by decide) (by decide)⟩

/-- Claim C2, what the code does: a PVD whose creation time decodes to an
epoch outside the XGD table and whose nine bytes from `btime.full[8]` are
`"7000000"`, `0xE4`, `0x00` (neither of the two XGD3 patterns) is classified
as XGD3 with wave 0, not as -1: the byte-wise scan also compares the window
that starts one byte into `xgd3_pvd_times`. -/
theorem isRomSupported_static_shifted_window (pvdTime : PvdTimeDecoder)
    (pvd : ISO_Primary_Volume_Descriptor) (pWave : Option Nat)
    (hdec : pvd_btime pvdTime pvd ≠ -1)
    (habs : ¬ in_xgd_tbl (pvd_btime pvdTime pvd))
    (htail : btime_tail9 pvd = xgd3_window_1) :
    btime_tail9 pvd ≠ xgd3_pattern_17 ∧ btime_tail9 pvd ≠ xgd3_pattern_16
    ∧ isRomSupported_static pvdTime (some pvd) pWave = (3, pWave.map (fun _ => 0)) := by
  have hscan := xgd_tbl_scan_none_of_absent _ habs
  unfold pvd_btime at hdec hscan
  refine ⟨by rw [htail]; decide, by rw [htail]; decide, ?_⟩
  simp only [isRomSupported_static, hdec, if_false, hscan, htail]
  rfl

/-- Witness for C2: with a decoder that yields epoch 0 for the text
`"201201017000000\xE4"` at offset byte `0x00`, the PVD is classified as XGD3. -/
theorem isRomSupported_static_shifted_window_witness :
    isRomSupported_static (fun _ _ => 0)
        (some ⟨⟨cstr "201201017000000" ++ [0xE4], 0⟩⟩) (some 9) = (3, some 0) :=
  (isRomSupported_static_shifted_window (fun _ _ => 0)
      ⟨⟨cstr "201201017000000" ++ [0xE4], 0⟩⟩ (some 9)
      (by decide) (by decide) (by decide)).2.2

/-- Claim C5: when the creation time of the PVD fails to decode (the decoder
yields -1), `isRomSupported_static` returns -1 and leaves `*pWave` as it was,
whatever the timestamp bytes are. -/
theorem isRomSupported_static_decode_failure (pvdTime : PvdTimeDecoder)
    (pvd : ISO_Primary_Volume_Descriptor) (pWave : Option Nat)
    (hdec : pvd_btime pvdTime pvd = -1) :
    isRomSupported_static pvdTime (some pvd) pWave = (-1, pWave) := by
  unfold pvd_btime at hdec
  simp [isRomSupported_static, hdec]

/-- Witness for C5: a timestamp whose date text is blank does not decode, and
the PVD is rejected with the wave byte untouched although its last nine bytes
are the first XGD3 pattern. -/
theorem isRomSupported_static_decode_failure_witness :
    pvd_btime pvd_time_to_unix_time (pvd_with_btime "        17000000" 0xE4) = -1
    ∧ btime_tail9 (pvd_with_btime "        17000000" 0xE4) = xgd3_pattern_17
    ∧ isRomSupported_static pvd_time_to_unix_time
        (some (pvd_with_btime "        17000000" 0xE4)) (some 9) = (-1, some 9) :=
  ⟨by decide, by decide, isRomSupported_static_decode_failure pvd_time_to_unix_time
      (pvd_with_btime "        17000000" 0xE4) (some 9) (by decide)⟩

/-- Claim C6: the epochs of the XGD rows are strictly increasing in table
order, hence pairwise distinct, and an epoch matches at most one row; so the
linear first-match scan of `isRomSupported_static` returns the same row as a
scan of the rows in any other order, and the same row as a binary search by
epoch. -/
theorem xgd_tbl_lookup_order_independent :
    List.Pairwise (· < ·) (xgd_rows.map (·.btime))
    ∧ (xgd_rows.map (·.btime)).Nodup
    ∧ (∀ e₁ ∈ xgd_rows, ∀ e₂ ∈ xgd_rows, e₁.btime = e₂.btime → e₁ = e₂)
    ∧ (∀ (l : List xgd_pvd_t), l.Perm xgd_rows → ∀ (btime : Int),
        xgd_tbl_scan btime (l ++ [xgd_terminator]) = xgd_tbl_scan btime xgd_tbl)
    ∧ (∀ (btime : Int), xgd_bsearch btime = xgd_tbl_scan btime xgd_tbl) := by
  refine ⟨by decide, by decide, xgd_rows_btime_inj, ?_, ?_⟩
  · intro l hp btime
    by_cases h : ∃ e₀ ∈ xgd_rows, e₀.btime = btime
    · obtain ⟨e₀, hm, he⟩ := h
      subst he
      rw [xgd_tbl_scan_rows e₀ hm]
      obtain ⟨e, hs, hmem, hbt⟩ := xgd_tbl_scan_finds e₀.btime [xgd_terminator] l
        (fun x hx => xgd_rows_xgd_ne_zero x (hp.mem_iff.1 hx))
        ⟨e₀, hp.mem_iff.2 hm, rfl⟩
      rw [hs, xgd_rows_btime_inj e (hp.mem_iff.1 hmem) e₀ hm hbt]
    · have hr : xgd_tbl_scan btime xgd_tbl = none := by
        cases hs : xgd_tbl_scan btime xgd_tbl with
        | none => rfl
        | some e =>
          rw [xgd_tbl_eq_rows] at hs
          obtain ⟨hm, hb⟩ := xgd_tbl_scan_some_mem_rows btime _ e hs
          exact absurd ⟨e, hm, hb⟩ h
      rw [hr]
      cases hs : xgd_tbl_scan btime (l ++ [xgd_terminator]) with
      | none => rfl
      | some e =>
        obtain ⟨hm, hb⟩ := xgd_tbl_scan_some_mem_rows btime _ e hs
        exact absurd ⟨e, hp.mem_iff.1 hm, hb⟩ h
  · intro btime
    by_cases h : ∃ e₀ ∈ xgd_rows, e₀.btime = btime
    · obtain ⟨e₀, hm, he⟩ := h
      subst he
      rw [xgd_tbl_scan_rows e₀ hm, xgd_bsearch_rows e₀ hm]
    · have hr : xgd_tbl_scan btime xgd_tbl = none := by
        cases hs : xgd_tbl_scan btime xgd_tbl with
        | none => rfl
        | some e =>
          rw [xgd_tbl_eq_rows] at hs
          obtain ⟨hm, hb⟩ := xgd_tbl_scan_some_mem_rows btime _ e hs
          exact absurd ⟨e, hm, hb⟩ h
      rw [hr]
      cases hs : xgd_bsearch btime with
      | none => rfl
      | some e =>
        obtain ⟨hm, hb⟩ := xgd_bsearch_aux_some_mem _ _ _ _ _ e hs
        exact absurd ⟨e, hm, hb⟩ h

/-- Witness for C6: scanning the rows in reverse order finds the same row for
epoch 1128716326 as the scan of the table, generation 2 wave 1. -/
theorem xgd_tbl_lookup_order_independent_witness :
    xgd_rows.reverse.Perm xgd_rows
    ∧ xgd_tbl_scan 1128716326 (xgd_rows.reverse ++ [xgd_terminator])
        = xgd_tbl_scan 1128716326 xgd_tbl
    ∧ xgd_tbl_scan 1128716326 xgd_tbl = some ⟨2, 1, 1128716326⟩ :=
  ⟨List.reverse_perm _,
   xgd_tbl_lookup_order_independent.2.2.2.1 xgd_rows.reverse (List.reverse_perm _) 1128716326,
   by decide⟩

/-! ## Claims on the constructor and `loadFieldData` -/

/-- Claim C7: the constructor yields a valid object only if the 20-byte magic
at the start and the 20-byte magic at the end of the XDVDFS header it read
both equal `XDVDFS_MAGIC`; if either copy differs the object is not valid and
the file is released, for every stream and so for every generation the PVD
classification returned. -/
theorem XboxDisc_valid_only_if_magic (c : DiscConsts) (pvdTime : PvdTimeDecoder)
    (bigEndian : Bool) :
    (∀ (file : Option IRpFile), (XboxDisc c pvdTime bigEndian file).isValid = true →
        ∃ f, file = some f
          ∧ hdr_magic (XboxDisc_hdrRead c pvdTime f) = c.XDVDFS_MAGIC
          ∧ hdr_magic_footer c (XboxDisc_hdrRead c pvdTime f) = c.XDVDFS_MAGIC
          ∧ (XboxDisc c pvdTime bigEndian file).xdvdfsHeader.magic = c.XDVDFS_MAGIC
          ∧ (XboxDisc c pvdTime bigEndian file).xdvdfsHeader.magic_footer = c.XDVDFS_MAGIC)
    ∧ (∀ (f : IRpFile),
        (hdr_magic (XboxDisc_hdrRead c pvdTime f) ≠ c.XDVDFS_MAGIC
          ∨ hdr_magic_footer c (XboxDisc_hdrRead c pvdTime f) ≠ c.XDVDFS_MAGIC) →
        (XboxDisc c pvdTime bigEndian (some f)).isValid = false
        ∧ (XboxDisc c pvdTime bigEndian (some f)).file = none) := by
  have key : ∀ (f : IRpFile), (XboxDisc c pvdTime bigEndian (some f)).isValid = true →
      hdr_magic (XboxDisc_hdrRead c pvdTime f) = c.XDVDFS_MAGIC
      ∧ hdr_magic_footer c (XboxDisc_hdrRead c pvdTime f) = c.XDVDFS_MAGIC
      ∧ (XboxDisc c pvdTime bigEndian (some f)).xdvdfsHeader.magic = c.XDVDFS_MAGIC
      ∧ (XboxDisc c pvdTime bigEndian (some f)).xdvdfsHeader.magic_footer
          = c.XDVDFS_MAGIC := by
    intro f hv
    by_cases hp : (XboxDisc_pvdRead c f).length = c.sizeof_pvd
    · by_cases hh : (XboxDisc_hdrRead c pvdTime f).length = c.sizeof_xdvdfsHeader
      · have hfull := read_into_full _ _ hh
        unfold XboxDisc_hdrRead XboxDisc_pvdType at hh hfull ⊢
        unfold XboxDisc_pvdRead at hp hh hfull ⊢
        unfold hdr_magic hdr_magic_footer
        simp only [XboxDisc, XboxDiscPrivate.init, hp, hh, hfull, ne_eq, not_true_eq_false,
          if_false, XDVDFS_Header.ofBuffer] at hv ⊢
        by_cases hm : List.take 20 (f.seekAndRead
            (xdvdfs_addr_of c (isRomSupported_static pvdTime
                (some (pvd_of_bytes c (f.seekAndRead c.ISO_PVD_ADDRESS_2048 c.sizeof_pvd)))
                (some 0)).1 + c.XDVDFS_HEADER_LBA_OFFSET * c.XDVDFS_BLOCK_SIZE)
            c.sizeof_xdvdfsHeader) = c.XDVDFS_MAGIC
        · by_cases hf : List.take 20 (List.drop (c.sizeof_xdvdfsHeader - 20) (f.seekAndRead
              (xdvdfs_addr_of c (isRomSupported_static pvdTime
                  (some (pvd_of_bytes c (f.seekAndRead c.ISO_PVD_ADDRESS_2048 c.sizeof_pvd)))
                  (some 0)).1 + c.XDVDFS_HEADER_LBA_OFFSET * c.XDVDFS_BLOCK_SIZE)
              c.sizeof_xdvdfsHeader)) = c.XDVDFS_MAGIC
          · simp only [hm, hf, not_true_eq_false, or_self, if_false]
            refine ⟨trivial, trivial, ?_, ?_⟩
            · split <;> split <;> rfl
            · split <;> split <;> rfl
          · simp [hm, hf] at hv
        · simp [hm] at hv
      · have := (XboxDisc_hdr_short c pvdTime bigEndian f hp hh).1
        rw [this] at hv
        exact absurd hv (by decide)
    · rw [XboxDisc_pvd_short c pvdTime bigEndian f hp] at hv
      simp [XboxDiscPrivate.init] at hv
  refine ⟨?_, ?_⟩
  · intro file hv
    cases file with
    | none => simp [XboxDisc, XboxDiscPrivate.init] at hv
    | some f => exact ⟨f, rfl, key f hv⟩
  · intro f hne
    have hv : (XboxDisc c pvdTime bigEndian (some f)).isValid = false := by
      cases hb : (XboxDisc c pvdTime bigEndian (some f)).isValid with
      | false => rfl
      | true =>
        obtain ⟨h1, h2, _, _⟩ := key f hb
        rcases hne with h | h
        · exact absurd h1 h
        · exact absurd h2 h
    exact ⟨hv, XboxDisc_not_valid_released c pvdTime bigEndian (some f) hv⟩

/-- Witness for C7: an XGD1 image (generation 1 from the PVD) whose header
footer is damaged gives an object that is not valid and holds no file. -/
theorem XboxDisc_valid_only_if_magic_witness :
    XboxDisc_pvdType disc_consts pvd_time_to_unix_time xgd1_bad_footer = 1
    ∧ hdr_magic_footer disc_consts
        (XboxDisc_hdrRead disc_consts pvd_time_to_unix_time xgd1_bad_footer)
        ≠ disc_consts.XDVDFS_MAGIC
    ∧ (XboxDisc disc_consts pvd_time_to_unix_time false (some xgd1_bad_footer)).isValid = false
    ∧ (XboxDisc disc_consts pvd_time_to_unix_time false (some xgd1_bad_footer)).file = none :=
  ⟨by decide!, by decide!,
   (XboxDisc_valid_only_if_magic disc_consts pvd_time_to_unix_time false).2 xgd1_bad_footer
     (Or.inr (by decide!))⟩

/-- Claim C8: for a stream whose PVD is read in full and is not classified as
an Xbox disc (`isRomSupported_static` returns -1) and whose XDVDFS header,
read with base address 0, is read in full and has both magic copies equal to
`XDVDFS_MAGIC`, the constructor yields a valid object that keeps the file,
with `discType = DISC_TYPE_EXTRACTED` (0) and `wave = 0`. -/
theorem XboxDisc_extracted (c : DiscConsts) (pvdTime : PvdTimeDecoder) (bigEndian : Bool)
    (f : IRpFile)
    (hp : (XboxDisc_pvdRead c f).length = c.sizeof_pvd)
    (hcls : XboxDisc_pvdType c pvdTime f = -1)
    (hh : (f.seekAndRead (0 + c.XDVDFS_HEADER_LBA_OFFSET * c.XDVDFS_BLOCK_SIZE)
            c.sizeof_xdvdfsHeader).length = c.sizeof_xdvdfsHeader)
    (hm : hdr_magic (f.seekAndRead (0 + c.XDVDFS_HEADER_LBA_OFFSET * c.XDVDFS_BLOCK_SIZE)
            c.sizeof_xdvdfsHeader) = c.XDVDFS_MAGIC)
    (hf : hdr_magic_footer c
            (f.seekAndRead (0 + c.XDVDFS_HEADER_LBA_OFFSET * c.XDVDFS_BLOCK_SIZE)
              c.sizeof_xdvdfsHeader) = c.XDVDFS_MAGIC) :
    (XboxDisc c pvdTime bigEndian (some f)).isValid = true
    ∧ (XboxDisc c pvdTime bigEndian (some f)).discType = DISC_TYPE_EXTRACTED
    ∧ (XboxDisc c pvdTime bigEndian (some f)).wave = 0
    ∧ (XboxDisc c pvdTime bigEndian (some f)).file = some f := by
  have hw := isRomSupported_static_fail_keeps_wave pvdTime
    (some (pvd_of_bytes c (XboxDisc_pvdRead c f))) (some 0) hcls
  have hfull := read_into_full _ _ hh
  unfold XboxDisc_pvdType at hcls
  unfold XboxDisc_pvdRead at hp hcls hw
  unfold hdr_magic at hm
  unfold hdr_magic_footer at hf
  have haddr : xdvdfs_addr_of c (-1) = 0 := by
    simp [xdvdfs_addr_of, DISC_TYPE_XGD1, DISC_TYPE_XGD2, DISC_TYPE_XGD3]
  simp only [XboxDisc, XboxDiscPrivate.init, hp, hcls, hw, haddr, hh, hfull, hm, hf, ne_eq,
    not_true_eq_false, if_false, or_self, XDVDFS_Header.ofBuffer, DISC_UNKNOWN,
    Option.getD_some]
  refine ⟨?_, ?_, ?_, ?_⟩
  · trivial
  · split <;> simp [DISC_TYPE_EXTRACTED]
  · split <;> rfl
  · split <;> rfl

/-- Witness for C8: an extracted XDVDFS image, blank where the PVD would be
and with the header at block 32, gives a valid object of type 0, wave 0. -/
theorem XboxDisc_extracted_witness :
    XboxDisc_pvdType disc_consts pvd_time_to_unix_time extracted_xdvdfs = -1
    ∧ (XboxDisc disc_consts pvd_time_to_unix_time false (some extracted_xdvdfs)).isValid = true
    ∧ (XboxDisc disc_consts pvd_time_to_unix_time false (some extracted_xdvdfs)).discType
        = DISC_TYPE_EXTRACTED
    ∧ (XboxDisc disc_consts pvd_time_to_unix_time false (some extracted_xdvdfs)).wave = 0
    ∧ (XboxDisc disc_consts pvd_time_to_unix_time false (some extracted_xdvdfs)).file
        = some extracted_xdvdfs :=
  ⟨by decide!,
   XboxDisc_extracted disc_consts pvd_time_to_unix_time false extracted_xdvdfs
     (by decide!) (by decide!) (by decide!) (by decide!) (by decide!)⟩

/-- Claim C9: when the read of the PVD, or the read of the XDVDFS header that
follows a full PVD read, returns a number of bytes other than the size of the
record (fewer, for a short read), the constructor leaves the object not valid
and releases the file, whatever bytes were read. -/
theorem XboxDisc_short_read (c : DiscConsts) (pvdTime : PvdTimeDecoder) (bigEndian : Bool)
    (f : IRpFile)
    (h : (XboxDisc_pvdRead c f).length ≠ c.sizeof_pvd
      ∨ ((XboxDisc_pvdRead c f).length = c.sizeof_pvd
          ∧ (XboxDisc_hdrRead c pvdTime f).length ≠ c.sizeof_xdvdfsHeader)) :
    (XboxDisc c pvdTime bigEndian (some f)).isValid = false
    ∧ (XboxDisc c pvdTime bigEndian (some f)).file = none := by
  rcases h with hp | ⟨hp, hh⟩
  · rw [XboxDisc_pvd_short c pvdTime bigEndian f hp]
    exact ⟨rfl, rfl⟩
  · exact XboxDisc_hdr_short c pvdTime bigEndian f hp hh

/-- Witness for C9: an XGD1 image cut off inside the XDVDFS header (a
100-byte read that starts with the right magic) is not valid and holds no
file. -/
theorem XboxDisc_short_read_witness :
    (XboxDisc_hdrRead disc_consts pvd_time_to_unix_time xgd1_truncated).length = 100
    ∧ hdr_magic (XboxDisc_hdrRead disc_consts pvd_time_to_unix_time xgd1_truncated)
        = disc_consts.XDVDFS_MAGIC
    ∧ (XboxDisc disc_consts pvd_time_to_unix_time false (some xgd1_truncated)).isValid = false
    ∧ (XboxDisc disc_consts pvd_time_to_unix_time false (some xgd1_truncated)).file = none :=
  ⟨by decide!, by decide!,
   XboxDisc_short_read disc_consts pvd_time_to_unix_time false xgd1_truncated
     (Or.inr ⟨by decide!, by decide!⟩)⟩

/-- Counterexample for C10: over an open stream that holds no data the PVD
read is short, and `loadFieldData` on the constructed object returns
`-EBADF`, not `-EIO`. -/
theorem loadFieldData_short_read_returns_EBADF :
    empty_stream.isOpen = true
    ∧ (XboxDisc_pvdRead disc_consts empty_stream).length < disc_consts.sizeof_pvd
    ∧ (loadFieldData (fun _ => none)
        (XboxDisc disc_consts pvd_time_to_unix_time false (some empty_stream))).1 = - EBADF
    ∧ (loadFieldData (fun _ => none)
        (XboxDisc disc_consts pvd_time_to_unix_time false (some empty_stream))).1 ≠ - EIO := by
  decide

/-- Claim C10 as amended: for an object constructed over a stream on which the
PVD read or the XDVDFS header read was short, the constructor has released
the file and `loadFieldData` returns `-EBADF`; `loadFieldData` returns `-EIO`
only for an object with no fields loaded that holds an open file and is not
valid or has a negative disc type. -/
theorem loadFieldData_after_short_read (c : DiscConsts) (pvdTime : PvdTimeDecoder)
    (bigEndian : Bool) (isoFields : IRpFile → Option (List RomField)) :
    (∀ (f : IRpFile),
        ((XboxDisc_pvdRead c f).length ≠ c.sizeof_pvd
          ∨ ((XboxDisc_pvdRead c f).length = c.sizeof_pvd
              ∧ (XboxDisc_hdrRead c pvdTime f).length ≠ c.sizeof_xdvdfsHeader)) →
        (loadFieldData isoFields (XboxDisc c pvdTime bigEndian (some f))).1 = - EBADF)
    ∧ (∀ (d : XboxDiscPrivate), (loadFieldData isoFields d).1 = - EIO →
        d.fields.fields = []
        ∧ ∃ f, d.file = some f ∧ f.isOpen = true ∧ (d.isValid = false ∨ d.discType < 0)) := by
  refine ⟨?_, ?_⟩
  · intro f h
    have hnone : (XboxDisc c pvdTime bigEndian (some f)).file = none := by
      rcases h with hp | ⟨hp, hh⟩
      · rw [XboxDisc_pvd_short c pvdTime bigEndian f hp]
      · exact (XboxDisc_hdr_short c pvdTime bigEndian f hp hh).2
    have hfields : (XboxDisc c pvdTime bigEndian (some f)).fields.fields = [] := by
      rcases h with hp | ⟨hp, hh⟩
      · rw [XboxDisc_pvd_short c pvdTime bigEndian f hp]
        rfl
      · unfold XboxDisc_hdrRead XboxDisc_pvdType at hh
        unfold XboxDisc_pvdRead at hp hh
        simp [XboxDisc, XboxDiscPrivate.init, hp, hh]
    simp [loadFieldData, hnone, hfields]
  · intro d h
    unfold loadFieldData at h
    by_cases he : d.fields.fields.isEmpty = true
    · simp only [he, not_true_eq_false, if_false] at h
      have hnil : d.fields.fields = [] := List.isEmpty_iff.1 he
      refine ⟨hnil, ?_⟩
      cases hfile : d.file with
      | none =>
        simp only [hfile] at h
        simp [EBADF, EIO] at h
      | some f =>
        simp only [hfile] at h
        by_cases ho : f.isOpen = true
        · simp only [ho, not_true_eq_false, if_false] at h
          by_cases hbad : ¬ d.isValid = true ∨ d.discType < 0
          · refine ⟨f, rfl, ho, ?_⟩
            rcases hbad with hb | hb
            · left
              simpa using hb
            · right
              exact hb
          · simp only [hbad, if_false] at h
            simp only [ EIO] at h
            omega
        · simp only [ho] at h
          simp [EBADF, EIO] at h
    · simp only [he] at h
      simp [ EIO] at h

/-- Witness for C10 as amended: the truncated XGD1 image has a full PVD read
and a short header read; `loadFieldData` on the object returns `-EBADF`. -/
theorem loadFieldData_after_short_read_witness :
    (XboxDisc_hdrRead disc_consts pvd_time_to_unix_time xgd1_truncated).length
        ≠ disc_consts.sizeof_xdvdfsHeader
    ∧ (loadFieldData (fun _ => none)
        (XboxDisc disc_consts pvd_time_to_unix_time false (some xgd1_truncated))).1 = - EBADF :=
  ⟨by decide!,
   (loadFieldData_after_short_read disc_consts pvd_time_to_unix_time false (fun _ => none)).1
     xgd1_truncated (Or.inr ⟨by decide!, by decide!⟩)⟩

/-! ## Lemmas on byte order -/

theorem le_val_cons (a : Nat) (l : List Nat) :
    le_val (a :: l) = a % 256 + 256 * le_val l := rfl

theorem be_val_eq_le_val_reverse (l : List Nat) : be_val l = le_val l.reverse := by
  unfold be_val le_val
  rw [List.foldr_reverse]
  congr 1
  funext acc b
  omega

theorem le_bytes_le_val (l : List Nat) :
    le_bytes l.length (le_val l) = l.map (fun b => b % 256) := by
  induction l with
  | nil => rfl
  | cons a l ih =>
    have h1 : (a % 256 + 256 * le_val l) % 256 = a % 256 := by omega
    have h2 : (a % 256 + 256 * le_val l) / 256 = le_val l := by omega
    simp only [List.length_cons, le_bytes, le_val_cons, h1, h2, ih, List.map_cons]

theorem le_val_map_mod (l : List Nat) : le_val (l.map (fun b => b % 256)) = le_val l := by
  induction l with
  | nil => rfl
  | cons a l ih =>
    simp only [List.map_cons, le_val_cons, ih, Nat.mod_mod]

theorem le_val_lt (l : List Nat) : le_val l < 256 ^ l.length := by
  induction l with
  | nil => simp [le_val]
  | cons a l ih =>
    have ha : a % 256 < 256 := Nat.mod_lt _ (by decide)
    simp only [le_val_cons, List.length_cons, Nat.pow_succ]
    omega

/-- Swapping the bytes of the big-endian reading of a byte run gives its
little-endian reading. -/
theorem bswap_be_val (l : List Nat) : bswap l.length (be_val l) = le_val l := by
  unfold bswap
  rw [be_val_eq_le_val_reverse l]
  have h := le_bytes_le_val l.reverse
  rw [List.length_reverse] at h
  rw [h, be_val_eq_le_val_reverse, ← List.map_reverse, List.reverse_reverse, le_val_map_mod]

/-- A byte run of bytes below 256 is the little-endian encoding of its
little-endian value. -/
theorem le_bytes_le_val_of_bytes (l : List Nat) (hb : ∀ b ∈ l, b < 256) :
    le_bytes l.length (le_val l) = l := by
  rw [le_bytes_le_val]
  conv_rhs => rw [← List.map_id l]
  apply List.map_congr_left
  intro b hmem
  exact Nat.mod_eq_of_lt (hb b hmem)

/-! ## Lemmas on valid objects -/

/-- The values `isRomSupported_static` can return, with the wave byte each
leaves behind. -/
theorem isRomSupported_static_cases (pvdTime : PvdTimeDecoder)
    (pvd : Option ISO_Primary_Volume_Descriptor) (pWave : Option Nat) :
    isRomSupported_static pvdTime pvd pWave = (-1, pWave)
    ∨ isRomSupported_static pvdTime pvd pWave = (3, pWave.map (fun _ => 0))
    ∨ ∃ e ∈ xgd_rows,
        isRomSupported_static pvdTime pvd pWave = ((e.xgd : Int), pWave.map (fun _ => e.wave)) := by
  unfold isRomSupported_static
  cases pvd with
  | none => exact Or.inl rfl
  | some pvd =>
    simp only
    split
    · exact Or.inl rfl
    · split
      · rename_i e he
        rw [xgd_tbl_eq_rows] at he
        exact Or.inr (Or.inr ⟨e, (xgd_tbl_scan_some_mem_rows _ _ e he).1, rfl⟩)
      · split
        · exact Or.inr (Or.inl rfl)
        · exact Or.inl rfl

theorem xgd_rows_generation_wave :
    ∀ e ∈ xgd_rows, (e.xgd = 1 ∧ e.wave = 0) ∨ (e.xgd = 2 ∧ 1 ≤ e.wave ∧ e.wave ≤ 20) := by
  decide

/-- What a valid object holds when the constructor returns: both reads were
full, the file is kept, no fields are loaded, the header is the decoded
header record and the disc type is the classification, with 0 in place of a
value of -1 or less. -/
theorem XboxDisc_valid_state (c : DiscConsts) (pvdTime : PvdTimeDecoder) (bigEndian : Bool)
    (f : IRpFile) (hv : (XboxDisc c pvdTime bigEndian (some f)).isValid = true) :
    (XboxDisc_pvdRead c f).length = c.sizeof_pvd
    ∧ (XboxDisc_hdrRead c pvdTime f).length = c.sizeof_xdvdfsHeader
    ∧ (XboxDisc c pvdTime bigEndian (some f)).file = some f
    ∧ (XboxDisc c pvdTime bigEndian (some f)).fields = ⟨none, []⟩
    ∧ (XboxDisc c pvdTime bigEndian (some f)).xdvdfsHeader
        = XDVDFS_Header.decode c bigEndian (XboxDisc_hdrRead c pvdTime f)
    ∧ (XboxDisc c pvdTime bigEndian (some f)).discType
        = (if XboxDisc_pvdType c pvdTime f ≤ DISC_UNKNOWN then DISC_TYPE_EXTRACTED
           else XboxDisc_pvdType c pvdTime f) := by
  by_cases hp : (XboxDisc_pvdRead c f).length = c.sizeof_pvd
  · by_cases hh : (XboxDisc_hdrRead c pvdTime f).length = c.sizeof_xdvdfsHeader
    · refine ⟨hp, hh, ?_⟩
      have hfull := read_into_full _ _ hh
      unfold XboxDisc_hdrRead XboxDisc_pvdType at hh hfull ⊢
      unfold XboxDisc_pvdRead at hp hh hfull ⊢
      simp only [XboxDisc, XboxDiscPrivate.init, hp, hh, hfull, ne_eq, not_true_eq_false,
        if_false] at hv ⊢
      generalize isRomSupported_static pvdTime
        (some (pvd_of_bytes c (f.seekAndRead c.ISO_PVD_ADDRESS_2048 c.sizeof_pvd)))
        (some 0) = X at hv ⊢
      generalize f.seekAndRead
        (xdvdfs_addr_of c X.1 + c.XDVDFS_HEADER_LBA_OFFSET * c.XDVDFS_BLOCK_SIZE)
        c.sizeof_xdvdfsHeader = B at hv ⊢
      by_cases hm : ¬ (XDVDFS_Header.ofBuffer c bigEndian B).magic = c.XDVDFS_MAGIC
          ∨ ¬ (XDVDFS_Header.ofBuffer c bigEndian B).magic_footer = c.XDVDFS_MAGIC
      · simp [hm] at hv
      · simp only [hm, if_false]
        cases bigEndian <;> by_cases hx : X.1 ≤ DISC_UNKNOWN <;>
          simp [hx, XDVDFS_Header.decode, XDVDFS_Header.normalise]
    · have := (XboxDisc_hdr_short c pvdTime bigEndian f hp hh).1
      rw [this] at hv
      exact absurd hv (by decide)
  · rw [XboxDisc_pvd_short c pvdTime bigEndian f hp] at hv
    simp [XboxDiscPrivate.init] at hv

theorem take_drop_append_drop (l : List Nat) (i k : Nat) :
    (l.drop i).take k ++ l.drop (i + k) = l.drop i := by
  have h := List.take_append_drop k (l.drop i)
  rw [List.drop_drop] at h
  exact h

/-- The decoded integer fields are the little-endian values of their bytes,
on either host, when the fields have their full width. -/
theorem XDVDFS_Header_decode_fields (c : DiscConsts) (bigEndian : Bool) (buf : List Nat)
    (hlen : 36 ≤ buf.length) :
    (XDVDFS_Header.decode c bigEndian buf).root_dir_sector = le_val ((buf.drop 20).take 4)
    ∧ (XDVDFS_Header.decode c bigEndian buf).root_dir_size = le_val ((buf.drop 24).take 4)
    ∧ (XDVDFS_Header.decode c bigEndian buf).timestamp = le_val ((buf.drop 28).take 8) := by
  have h1 : ((buf.drop 20).take 4).length = 4 := by
    simp only [List.length_take, List.length_drop]; omega
  have h2 : ((buf.drop 24).take 4).length = 4 := by
    simp only [List.length_take, List.length_drop]; omega
  have h3 : ((buf.drop 28).take 8).length = 8 := by
    simp only [List.length_take, List.length_drop]; omega
  have b1 := bswap_be_val ((buf.drop 20).take 4)
  have b2 := bswap_be_val ((buf.drop 24).take 4)
  have b3 := bswap_be_val ((buf.drop 28).take 8)
  rw [h1] at b1
  rw [h2] at b2
  rw [h3] at b3
  cases bigEndian
  · simp [XDVDFS_Header.decode, XDVDFS_Header.normalise, XDVDFS_Header.ofBuffer, host_val]
  · simp [XDVDFS_Header.decode, XDVDFS_Header.normalise, XDVDFS_Header.ofBuffer, host_val,
      le32_to_cpu, le64_to_cpu, b1, b2, b3]

/-! ## Claims on the header fields -/

/-- Claim C11: in a valid object the stored `root_dir_sector`, `root_dir_size`
and `timestamp` are the little-endian values of the on-disk header bytes at
offsets 20, 24 and 28, on both host byte orders; on a big-endian host each is
the byte swap of the host-order load, on a little-endian host it is the
host-order load with no swap. -/
theorem XboxDisc_header_fields_little_endian (c : DiscConsts) (pvdTime : PvdTimeDecoder)
    (bigEndian : Bool) (f : IRpFile) (hsz : 36 ≤ c.sizeof_xdvdfsHeader)
    (hv : (XboxDisc c pvdTime bigEndian (some f)).isValid = true) :
    ((XboxDisc c pvdTime bigEndian (some f)).xdvdfsHeader.root_dir_sector
        = le_val (((XboxDisc_hdrRead c pvdTime f).drop 20).take 4)
      ∧ (XboxDisc c pvdTime bigEndian (some f)).xdvdfsHeader.root_dir_size
        = le_val (((XboxDisc_hdrRead c pvdTime f).drop 24).take 4)
      ∧ (XboxDisc c pvdTime bigEndian (some f)).xdvdfsHeader.timestamp
        = le_val (((XboxDisc_hdrRead c pvdTime f).drop 28).take 8))
    ∧ (bigEndian = true →
        (XboxDisc c pvdTime bigEndian (some f)).xdvdfsHeader.root_dir_sector
          = bswap 4 (XDVDFS_Header.ofBuffer c true (XboxDisc_hdrRead c pvdTime f)).root_dir_sector
        ∧ (XboxDisc c pvdTime bigEndian (some f)).xdvdfsHeader.root_dir_size
          = bswap 4 (XDVDFS_Header.ofBuffer c true (XboxDisc_hdrRead c pvdTime f)).root_dir_size
        ∧ (XboxDisc c pvdTime bigEndian (some f)).xdvdfsHeader.timestamp
          = bswap 8 (XDVDFS_Header.ofBuffer c true (XboxDisc_hdrRead c pvdTime f)).timestamp)
    ∧ (bigEndian = false →
        (XboxDisc c pvdTime bigEndian (some f)).xdvdfsHeader.root_dir_sector
          = (XDVDFS_Header.ofBuffer c false (XboxDisc_hdrRead c pvdTime f)).root_dir_sector
        ∧ (XboxDisc c pvdTime bigEndian (some f)).xdvdfsHeader.root_dir_size
          = (XDVDFS_Header.ofBuffer c false (XboxDisc_hdrRead c pvdTime f)).root_dir_size
        ∧ (XboxDisc c pvdTime bigEndian (some f)).xdvdfsHeader.timestamp
          = (XDVDFS_Header.ofBuffer c false (XboxDisc_hdrRead c pvdTime f)).timestamp) := by
  obtain ⟨_, hh, _, _, hhdr, _⟩ := XboxDisc_valid_state c pvdTime bigEndian f hv
  rw [hhdr]
  refine ⟨XDVDFS_Header_decode_fields c bigEndian _ (by omega), ?_, ?_⟩
  · intro hb
    subst hb
    simp [XDVDFS_Header.decode, XDVDFS_Header.normalise, le32_to_cpu, le64_to_cpu]
  · intro hb
    subst hb
    simp [XDVDFS_Header.decode, XDVDFS_Header.normalise]

/-- Witness for C11: on a big-endian host the XGD2 image, whose header holds
the bytes 03 02 01 00 at offset 20, gives a valid object with
`root_dir_sector = 0x00010203`. -/
theorem XboxDisc_header_fields_little_endian_witness :
    (XboxDisc disc_consts pvd_time_to_unix_time true (some xgd2_image)).isValid = true
    ∧ ((XboxDisc_hdrRead disc_consts pvd_time_to_unix_time xgd2_image).drop 20).take 4
        = [3, 2, 1, 0]
    ∧ (XboxDisc disc_consts pvd_time_to_unix_time true (some xgd2_image)).xdvdfsHeader.root_dir_sector
        = le_val (((XboxDisc_hdrRead disc_consts pvd_time_to_unix_time xgd2_image).drop 20).take 4) :=
  ⟨by decide!, by decide!,
   (XboxDisc_header_fields_little_endian disc_consts pvd_time_to_unix_time true xgd2_image
      (by decide) (by decide!)).1.1⟩

/-- Claim C12: for every header byte record (bytes below 256, of the size of
the record), decoding it - the host-order load followed by the normalisation
of `root_dir_sector`, `root_dir_size` and `timestamp` - and re-encoding the
decoded fields as little-endian gives back the original bytes, on both host
byte orders; the normalisation leaves `magic` and `magic_footer` as loaded;
and the header of a valid object is this decoding of the bytes read. -/
theorem XDVDFS_Header_decode_encode_roundtrip :
    (∀ (c : DiscConsts) (bigEndian : Bool) (buf : List Nat),
        buf.length = c.sizeof_xdvdfsHeader → 56 ≤ c.sizeof_xdvdfsHeader →
        (∀ b ∈ buf, b < 256) →
        XDVDFS_Header.encode_le (XDVDFS_Header.decode c bigEndian buf) = buf)
    ∧ (∀ (c : DiscConsts) (bigEndian : Bool) (buf : List Nat),
        (XDVDFS_Header.decode c bigEndian buf).magic
            = (XDVDFS_Header.ofBuffer c bigEndian buf).magic
        ∧ (XDVDFS_Header.decode c bigEndian buf).magic_footer
            = (XDVDFS_Header.ofBuffer c bigEndian buf).magic_footer
        ∧ (XDVDFS_Header.decode c bigEndian buf).magic = buf.take 20
        ∧ (XDVDFS_Header.decode c bigEndian buf).magic_footer
            = (buf.drop (c.sizeof_xdvdfsHeader - 20)).take 20)
    ∧ (∀ (c : DiscConsts) (pvdTime : PvdTimeDecoder) (bigEndian : Bool) (f : IRpFile),
        (XboxDisc c pvdTime bigEndian (some f)).isValid = true →
        (XboxDisc c pvdTime bigEndian (some f)).xdvdfsHeader
          = XDVDFS_Header.decode c bigEndian (XboxDisc_hdrRead c pvdTime f)) := by
  refine ⟨?_, ?_, ?_⟩
  · intro c bigEndian buf hlen hsz hb
    obtain ⟨f1, f2, f3⟩ := XDVDFS_Header_decode_fields c bigEndian buf (by omega)
    have hm : (XDVDFS_Header.decode c bigEndian buf).magic = buf.take 20 := by
      cases bigEndian <;> rfl
    have hu : (XDVDFS_Header.decode c bigEndian buf).unused
        = (buf.drop 36).take (c.sizeof_xdvdfsHeader - 56) := by
      cases bigEndian <;> rfl
    have hf : (XDVDFS_Header.decode c bigEndian buf).magic_footer
        = (buf.drop (c.sizeof_xdvdfsHeader - 20)).take 20 := by
      cases bigEndian <;> rfl
    have l1 : ((buf.drop 20).take 4).length = 4 := by
      simp only [List.length_take, List.length_drop]; omega
    have l2 : ((buf.drop 24).take 4).length = 4 := by
      simp only [List.length_take, List.length_drop]; omega
    have l3 : ((buf.drop 28).take 8).length = 8 := by
      simp only [List.length_take, List.length_drop]; omega
    have r1 := le_bytes_le_val_of_bytes ((buf.drop 20).take 4)
      (fun b hmem => hb b (List.mem_of_mem_drop (List.mem_of_mem_take hmem)))
    have r2 := le_bytes_le_val_of_bytes ((buf.drop 24).take 4)
      (fun b hmem => hb b (List.mem_of_mem_drop (List.mem_of_mem_take hmem)))
    have r3 := le_bytes_le_val_of_bytes ((buf.drop 28).take 8)
      (fun b hmem => hb b (List.mem_of_mem_drop (List.mem_of_mem_take hmem)))
    rw [l1] at r1
    rw [l2] at r2
    rw [l3] at r3
    have e5 : (buf.drop (c.sizeof_xdvdfsHeader - 20)).take 20
        = buf.drop (c.sizeof_xdvdfsHeader - 20) :=
      List.take_of_length_le (by simp only [List.length_drop]; omega)
    have e4 : (buf.drop 36).take (c.sizeof_xdvdfsHeader - 56)
        ++ buf.drop (c.sizeof_xdvdfsHeader - 20) = buf.drop 36 := by
      have h := take_drop_append_drop buf 36 (c.sizeof_xdvdfsHeader - 56)
      rwa [show 36 + (c.sizeof_xdvdfsHeader - 56) = c.sizeof_xdvdfsHeader - 20 by omega] at h
    have e3 : (buf.drop 28).take 8 ++ buf.drop 36 = buf.drop 28 :=
      take_drop_append_drop buf 28 8
    have e2 : (buf.drop 24).take 4 ++ buf.drop 28 = buf.drop 24 :=
      take_drop_append_drop buf 24 4
    have e1 : (buf.drop 20).take 4 ++ buf.drop 24 = buf.drop 20 :=
      take_drop_append_drop buf 20 4
    unfold XDVDFS_Header.encode_le
    rw [f1, f2, f3, hm, hu, hf, r1, r2, r3, e5]
    simp only [List.append_assoc]
    rw [e4, e3, e2, e1, List.take_append_drop]
  · intro c bigEndian buf
    cases bigEndian <;> exact ⟨rfl, rfl, rfl, rfl⟩
  · intro c pvdTime bigEndian f hv
    exact (XboxDisc_valid_state c pvdTime bigEndian f hv).2.2.2.2.1

/-- Witness for C12: on a big-endian host the header block of the XGD2 image
decodes and re-encodes to itself. -/
theorem XDVDFS_Header_decode_encode_roundtrip_witness :
    (xdvdfs_block_with 0x00010203 0x1000 127731899260000000).length
        = disc_consts.sizeof_xdvdfsHeader
    ∧ XDVDFS_Header.encode_le (XDVDFS_Header.decode disc_consts true
          (xdvdfs_block_with 0x00010203 0x1000 127731899260000000))
        = xdvdfs_block_with 0x00010203 0x1000 127731899260000000 :=
  ⟨by decide!,
   XDVDFS_Header_decode_encode_roundtrip.1 disc_consts true
     (xdvdfs_block_with 0x00010203 0x1000 127731899260000000)
     (by decide!) (by decide) (by decide!)⟩

/-! ## Claims on the timestamp, the classification range and the fields -/

theorem be_val_lt (l : List Nat) : be_val l < 256 ^ l.length := by
  rw [be_val_eq_le_val_reverse]
  have h := le_val_lt l.reverse
  rwa [List.length_reverse] at h

theorem le_bytes_length (n x : Nat) : (le_bytes n x).length = n := by
  induction n generalizing x with
  | zero => rfl
  | succ n ih => simp [le_bytes, ih]

/-- The timestamp a decoded header holds fits 64 bits. -/
theorem XDVDFS_Header_decode_timestamp_lt (c : DiscConsts) (bigEndian : Bool)
    (buf : List Nat) : (XDVDFS_Header.decode c bigEndian buf).timestamp < 2 ^ 64 := by
  have hlen : ((buf.drop 28).take 8).length ≤ 8 := by
    simp only [List.length_take]; omega
  cases bigEndian
  · have h := le_val_lt ((buf.drop 28).take 8)
    have hp : 256 ^ ((buf.drop 28).take 8).length ≤ 256 ^ 8 :=
      Nat.pow_le_pow_right (by decide) hlen
    have e : (256 : Nat) ^ 8 = 2 ^ 64 := by norm_num
    simp only [XDVDFS_Header.decode, XDVDFS_Header.normalise, XDVDFS_Header.ofBuffer,
      host_val, Bool.false_eq_true, if_false]
    omega
  · have h := be_val_lt (le_bytes 8 (be_val ((buf.drop 28).take 8)))
    rw [le_bytes_length] at h
    have e : (256 : Nat) ^ 8 = 2 ^ 64 := by norm_num
    simp only [XDVDFS_Header.decode, XDVDFS_Header.normalise, XDVDFS_Header.ofBuffer,
      host_val, if_true, le64_to_cpu, bswap]
    omega

/-- The Unix time of a FILETIME that is not before 1970 and fits 64 bits. -/
theorem filetime_to_unix_eq (t : Nat) (h1 : FILETIME_1970 ≤ t) (h2 : t < 2 ^ 64) :
    filetime_to_unix t = (((t - FILETIME_1970) / HECTONANOSEC_PER_SEC : Nat) : Int) := by
  unfold filetime_to_unix
  have a : t % 2 ^ 64 = t := Nat.mod_eq_of_lt h2
  rw [a]
  generalize (2 : Nat) ^ 64 = N at h2 ⊢
  have b : t + N - FILETIME_1970 = (t - FILETIME_1970) + N := by omega
  have e : t - FILETIME_1970 < N := by omega
  rw [b, Nat.add_mod_right, Nat.mod_eq_of_lt e]

/-- What `loadFieldData` does on an object with no fields, an open file, a
valid state and a non-negative disc type. -/
theorem loadFieldData_success (isoFields : IRpFile → Option (List RomField))
    (d : XboxDiscPrivate) (f : IRpFile) (he : d.fields.fields = []) (hf : d.file = some f)
    (ho : f.isOpen = true) (hv : d.isValid = true) (ht : 0 ≤ d.discType) :
    ∃ extra : List RomField,
      (loadFieldData isoFields d).2.fields.fields
        = [disc_type_field d.discType d.wave,
           RomField.dateTime "Timestamp" (filetime_to_unix d.xdvdfsHeader.timestamp) true true]
          ++ extra
      ∧ (loadFieldData isoFields d).1
        = (((loadFieldData isoFields d).2.fields.fields.length : Nat) : Int) := by
  have hneg : ¬ d.discType < 0 := by omega
  unfold loadFieldData
  simp only [he, List.isEmpty_nil, not_true_eq_false, if_false, hf, ho, hv, hneg, or_self,
    List.nil_append]
  by_cases h1 : d.discType ≥ DISC_TYPE_XGD1
  · cases hiso : isoFields f with
    | none => exact ⟨[], by simp [h1, hiso]⟩
    | some extra => exact ⟨extra, by simp [h1, hiso]⟩
  · exact ⟨[], by simp [h1]⟩

/-- Claim C13: for a valid object over an open file whose header timestamp
`t` is at least 116444736000000000, the second field `loadFieldData` adds is
the date/time field "Timestamp" with the Unix time
`(t - 116444736000000000) / 10000000` and both the date and the time flag;
`t = 116444736000000000` maps to Unix time 0.  (`time_t` is taken to be 64
bits wide.) -/
theorem loadFieldData_timestamp_field (c : DiscConsts) (pvdTime : PvdTimeDecoder)
    (bigEndian : Bool) (isoFields : IRpFile → Option (List RomField)) (f : IRpFile)
    (ho : f.isOpen = true)
    (hv : (XboxDisc c pvdTime bigEndian (some f)).isValid = true)
    (ht : 116444736000000000 ≤ (XboxDisc c pvdTime bigEndian (some f)).xdvdfsHeader.timestamp) :
    (loadFieldData isoFields (XboxDisc c pvdTime bigEndian (some f))).2.fields.fields[1]?
      = some (RomField.dateTime "Timestamp"
          ((((XboxDisc c pvdTime bigEndian (some f)).xdvdfsHeader.timestamp
              - 116444736000000000) / 10000000 : Nat) : Int) true true)
    ∧ filetime_to_unix 116444736000000000 = 0 := by
  obtain ⟨_, _, hfile, hfields, hhdr, hdt⟩ := XboxDisc_valid_state c pvdTime bigEndian f hv
  have hlt : (XboxDisc c pvdTime bigEndian (some f)).xdvdfsHeader.timestamp < 2 ^ 64 := by
    rw [hhdr]
    exact XDVDFS_Header_decode_timestamp_lt c bigEndian _
  have hnn : 0 ≤ (XboxDisc c pvdTime bigEndian (some f)).discType := by
    rw [hdt]
    split
    · decide
    · rename_i h
      simp only [DISC_UNKNOWN] at h
      omega
  have he : (XboxDisc c pvdTime bigEndian (some f)).fields.fields = [] := by
    rw [hfields]
  obtain ⟨extra, hfs, _⟩ := loadFieldData_success isoFields _ f he hfile ho hv hnn
  refine ⟨?_, by decide⟩
  rw [hfs, filetime_to_unix_eq _ ht hlt]
  simp [FILETIME_1970, HECTONANOSEC_PER_SEC]

/-- Witness for C13: the XGD2 image holds the FILETIME 127731899260000000;
the Timestamp field is 1128716326 with both flags. -/
theorem loadFieldData_timestamp_field_witness :
    (XboxDisc disc_consts pvd_time_to_unix_time false (some xgd2_image)).xdvdfsHeader.timestamp
        = 127731899260000000
    ∧ (loadFieldData (fun _ => none)
        (XboxDisc disc_consts pvd_time_to_unix_time false (some xgd2_image))).2.fields.fields[1]?
      = some (RomField.dateTime "Timestamp"
          ((((XboxDisc disc_consts pvd_time_to_unix_time false
                (some xgd2_image)).xdvdfsHeader.timestamp
              - 116444736000000000) / 10000000 : Nat) : Int) true true) :=
  ⟨by decide!,
   (loadFieldData_timestamp_field disc_consts pvd_time_to_unix_time false (fun _ => none)
      xgd2_image (by decide) (by decide!) (by decide!)).1⟩

/-- Claim C14: `isRomSupported_static` returns only -1, 1, 2 or 3, never 0;
when it returns -1 the wave byte is left as it was; otherwise the wave it
writes is non-zero exactly when it returns 2, then lies in 1..20, and is 0
when it returns 1 or 3. -/
theorem isRomSupported_static_range (pvdTime : PvdTimeDecoder)
    (pvd : Option ISO_Primary_Volume_Descriptor) (pWave : Option Nat) :
    ((isRomSupported_static pvdTime pvd pWave).1 = -1
      ∨ (isRomSupported_static pvdTime pvd pWave).1 = 1
      ∨ (isRomSupported_static pvdTime pvd pWave).1 = 2
      ∨ (isRomSupported_static pvdTime pvd pWave).1 = 3)
    ∧ ((isRomSupported_static pvdTime pvd pWave).1 = -1 →
        (isRomSupported_static pvdTime pvd pWave).2 = pWave)
    ∧ (∀ w₀ : Nat, pWave = some w₀ → (isRomSupported_static pvdTime pvd pWave).1 ≠ -1 →
        ∃ w : Nat, (isRomSupported_static pvdTime pvd pWave).2 = some w
          ∧ (w ≠ 0 ↔ (isRomSupported_static pvdTime pvd pWave).1 = 2)
          ∧ ((isRomSupported_static pvdTime pvd pWave).1 = 2 → 1 ≤ w ∧ w ≤ 20)
          ∧ ((isRomSupported_static pvdTime pvd pWave).1 = 1
              ∨ (isRomSupported_static pvdTime pvd pWave).1 = 3 → w = 0)) := by
  rcases isRomSupported_static_cases pvdTime pvd pWave with h | h | ⟨e, hm, h⟩
  · rw [h]
    refine ⟨Or.inl rfl, fun _ => rfl, ?_⟩
    intro w₀ _ hne
    exact absurd rfl hne
  · rw [h]
    refine ⟨Or.inr (Or.inr (Or.inr rfl)), fun h3 => by simp at h3, ?_⟩
    intro w₀ hw _
    subst hw
    exact ⟨0, rfl, by simp, by simp, fun _ => rfl⟩
  · rw [h]
    rcases xgd_rows_generation_wave e hm with ⟨hx, hwv⟩ | ⟨hx, hw1, hw2⟩
    · refine ⟨Or.inr (Or.inl (by simp [hx])), fun h1 => by simp [hx] at h1, ?_⟩
      intro w₀ hw _
      subst hw
      refine ⟨e.wave, rfl, ?_, ?_, ?_⟩
      · simp [hx, hwv]
      · simp [hx]
      · intro _
        exact hwv
    · refine ⟨Or.inr (Or.inr (Or.inl (by simp [hx]))), fun h1 => by simp [hx] at h1, ?_⟩
      intro w₀ hw _
      subst hw
      refine ⟨e.wave, rfl, ?_, ?_, ?_⟩
      · simp only [hx, Nat.cast_ofNat, iff_true]
        omega
      · intro _
        exact ⟨hw1, hw2⟩
      · simp [hx]

/-- Witness for C14: the PVD of XGD2 wave 1 makes the function return 2 and
write wave 1 over the byte 9. -/
theorem isRomSupported_static_range_witness :
    (isRomSupported_static pvd_time_to_unix_time
        (some (pvd_with_btime "2005100712184600" 0xE0)) (some 9)).1 = 2
    ∧ ∃ w : Nat, (isRomSupported_static pvd_time_to_unix_time
          (some (pvd_with_btime "2005100712184600" 0xE0)) (some 9)).2 = some w
        ∧ (w ≠ 0 ↔ (isRomSupported_static pvd_time_to_unix_time
            (some (pvd_with_btime "2005100712184600" 0xE0)) (some 9)).1 = 2)
        ∧ ((isRomSupported_static pvd_time_to_unix_time
            (some (pvd_with_btime "2005100712184600" 0xE0)) (some 9)).1 = 2 → 1 ≤ w ∧ w ≤ 20)
        ∧ ((isRomSupported_static pvd_time_to_unix_time
              (some (pvd_with_btime "2005100712184600" 0xE0)) (some 9)).1 = 1
            ∨ (isRomSupported_static pvd_time_to_unix_time
              (some (pvd_with_btime "2005100712184600" 0xE0)) (some 9)).1 = 3 → w = 0) :=
  ⟨by decide,
   (isRomSupported_static_range pvd_time_to_unix_time
      (some (pvd_with_btime "2005100712184600" 0xE0)) (some 9)).2.2 9 rfl (by decide)⟩

/-- A call of `loadFieldData` on an object that has fields returns 0 and
changes nothing. -/
theorem loadFieldData_loaded (isoFields : IRpFile → Option (List RomField))
    (d : XboxDiscPrivate) (h : d.fields.fields ≠ []) :
    loadFieldData isoFields d = (0, d) := by
  have he : d.fields.fields.isEmpty = false := by
    cases hl : d.fields.fields with
    | nil => exact absurd hl h
    | cons a l => rfl
  simp [loadFieldData, he]

theorem loadFieldData_repeat_loaded (isoFields : IRpFile → Option (List RomField))
    (d : XboxDiscPrivate) (h : d.fields.fields ≠ []) (k : Nat) :
    loadFieldData_repeat isoFields k d = d := by
  induction k with
  | zero => rfl
  | succ k ih =>
    simp only [loadFieldData_repeat, loadFieldData_loaded isoFields d h, ih]

/-- Claim C15: when the field set is not empty, `loadFieldData` returns 0 and
leaves the object as it is; a first call on an object with no fields, an open
file, a valid state and a non-negative disc type adds the "Disc Type" string
field and the "Timestamp" date/time field first, returns the field count,
which is at least 2, and after it every later call, however many came
before, returns 0 and changes nothing. -/
theorem loadFieldData_idempotent :
    (∀ (isoFields : IRpFile → Option (List RomField)) (d : XboxDiscPrivate),
        d.fields.fields ≠ [] → loadFieldData isoFields d = (0, d))
    ∧ (∀ (isoFields : IRpFile → Option (List RomField)) (d : XboxDiscPrivate) (f : IRpFile),
        d.fields.fields = [] → d.file = some f → f.isOpen = true → d.isValid = true →
        0 ≤ d.discType →
        (∃ (v : String) (t : Int) (extra : List RomField),
            (loadFieldData isoFields d).2.fields.fields
              = RomField.string "Disc Type" v :: RomField.dateTime "Timestamp" t true true
                  :: extra)
        ∧ (loadFieldData isoFields d).1
            = (((loadFieldData isoFields d).2.fields.fields.length : Nat) : Int)
        ∧ 2 ≤ (loadFieldData isoFields d).1
        ∧ ∀ (later : IRpFile → Option (List RomField)) (k : Nat),
            loadFieldData later (loadFieldData_repeat later k (loadFieldData isoFields d).2)
              = (0, (loadFieldData isoFields d).2)) := by
  refine ⟨loadFieldData_loaded, ?_⟩
  intro isoFields d f he hf ho hv ht
  obtain ⟨extra, hfs, hcnt⟩ := loadFieldData_success isoFields d f he hf ho hv ht
  have hne : (loadFieldData isoFields d).2.fields.fields ≠ [] := by
    rw [hfs]
    simp
  refine ⟨?_, hcnt, ?_, ?_⟩
  · have hdt : ∃ v, disc_type_field d.discType d.wave = RomField.string "Disc Type" v := by
      unfold disc_type_field
      split_ifs <;> exact ⟨_, rfl⟩
    obtain ⟨v, hv2⟩ := hdt
    exact ⟨v, _, extra, by rw [hfs, hv2]; rfl⟩
  · rw [hcnt, hfs]
    simp only [List.length_append, List.length_cons, List.length_nil]
    omega
  · intro later k
    rw [loadFieldData_repeat_loaded later _ hne k]
    exact loadFieldData_loaded later _ hne

/-- Witness for C15: the first call on the object of the XGD2 image returns 2,
the second call returns 0 and leaves the two fields. -/
theorem loadFieldData_idempotent_witness :
    (loadFieldData (fun _ => none)
        (XboxDisc disc_consts pvd_time_to_unix_time false (some xgd2_image))).1 = 2
    ∧ loadFieldData (fun _ => none)
        (loadFieldData_repeat (fun _ => none) 0
          (loadFieldData (fun _ => none)
            (XboxDisc disc_consts pvd_time_to_unix_time false (some xgd2_image))).2)
      = (0, (loadFieldData (fun _ => none)
            (XboxDisc disc_consts pvd_time_to_unix_time false (some xgd2_image))).2) :=
  ⟨by decide!,
   (loadFieldData_idempotent.2 (fun _ => none)
      (XboxDisc disc_consts pvd_time_to_unix_time false (some xgd2_image)) xgd2_image
      (by decide!) (XboxDisc_valid_state disc_consts pvd_time_to_unix_time false xgd2_image
        (by decide!)).2.2.1 (by decide) (by decide!) (by decide!)).2.2.2 (fun _ => none) 0⟩

/-- Claim C16: for a valid object and a valid system-name type, `systemName`
returns entry `type & 3` of "Microsoft Xbox 360", "Xbox 360", "X360" when the
disc type is XGD2 or XGD3, and of "Microsoft Xbox", "Xbox", "Xbox" when the
disc type is extracted XDVDFS or XGD1; it returns null when the object is not
valid or the type is not valid. -/
theorem systemName_entries (isSystemNameTypeValid : Nat → Bool) (d : XboxDiscPrivate)
    (type : Nat) :
    (d.isValid = true → isSystemNameTypeValid type = true →
        (d.discType = DISC_TYPE_XGD2 ∨ d.discType = DISC_TYPE_XGD3) →
        ∀ name : String,
          ["Microsoft Xbox 360", "Xbox 360", "X360"][type &&& 3]? = some name →
          systemName isSystemNameTypeValid d type = some name)
    ∧ (d.isValid = true → isSystemNameTypeValid type = true →
        (d.discType = DISC_TYPE_EXTRACTED ∨ d.discType = DISC_TYPE_XGD1) →
        ∀ name : String,
          ["Microsoft Xbox", "Xbox", "Xbox"][type &&& 3]? = some name →
          systemName isSystemNameTypeValid d type = some name)
    ∧ (d.isValid = false ∨ isSystemNameTypeValid type = false →
        systemName isSystemNameTypeValid d type = none) := by
  have hmod : type &&& 3 = type % 4 := Nat.and_pow_two_sub_one_eq_mod type 2
  have hlt : type % 4 < 4 := Nat.mod_lt _ (by decide)
  refine ⟨?_, ?_, ?_⟩
  · intro hv ht hd name hn
    have hge : d.discType ≥ DISC_TYPE_XGD2 := by
      rcases hd with h | h <;> simp [h, DISC_TYPE_XGD2, DISC_TYPE_XGD3]
    simp only [systemName, hv, ht, not_true_eq_false, or_self, if_false, hge, if_true,
      SYSNAME_TYPE_MASK, sysNames_X360]
    rw [hmod] at hn ⊢
    interval_cases (type % 4) <;> simp_all
  · intro hv ht hd name hn
    have hge : ¬ d.discType ≥ DISC_TYPE_XGD2 := by
      rcases hd with h | h <;> rw [h] <;> decide
    simp only [systemName, hv, ht, not_true_eq_false, or_self, if_false, hge,
      SYSNAME_TYPE_MASK, sysNames_Xbox]
    rw [hmod] at hn ⊢
    interval_cases (type % 4) <;> simp_all
  · intro h
    rcases h with h | h <;> simp [systemName, h]

/-- Witness for C16: for the valid object of the XGD2 image and type 1 (short
name), with types 0..2 taken as valid, the system name is "Xbox 360". -/
theorem systemName_entries_witness :
    (XboxDisc disc_consts pvd_time_to_unix_time false (some xgd2_image)).discType
        = DISC_TYPE_XGD2
    ∧ systemName (fun t => decide (t ≤ 2))
        (XboxDisc disc_consts pvd_time_to_unix_time false (some xgd2_image)) 1
      = some "Xbox 360" :=
  ⟨by decide!,
   (systemName_entries (fun t => decide (t ≤ 2))
      (XboxDisc disc_consts pvd_time_to_unix_time false (some xgd2_image)) 1).1
      (by decide!) (by decide) (Or.inl (by decide!)) "Xbox 360" (by decide)⟩

/-! ## Lemmas on `SparseDiscReader::read` -/

/-- What `readBlock` gives for a hole, an invalid block and a mapped block. -/
theorem readBlock_cases (r : SparseDiscReader) (blockIdx pos size : Nat) :
    (r.getPhysBlockAddr blockIdx = 0
      ∧ r.readBlock blockIdx pos size = some (List.replicate size 0, none))
    ∨ (r.getPhysBlockAddr blockIdx = -1 ∧ r.readBlock blockIdx pos size = none)
    ∨ (r.getPhysBlockAddr blockIdx ≠ 0 ∧ r.getPhysBlockAddr blockIdx ≠ -1
      ∧ r.readBlock blockIdx pos size
        = some ((r.file.seekAndRead (r.getPhysBlockAddr blockIdx + (pos : Int)) size).take size,
                some (r.getPhysBlockAddr blockIdx + (pos : Int), size))) := by
  unfold SparseDiscReader.readBlock
  by_cases h0 : r.getPhysBlockAddr blockIdx = 0
  · exact Or.inl ⟨h0, by simp [h0]⟩
  · by_cases h1 : r.getPhysBlockAddr blockIdx = -1
    · exact Or.inr (Or.inl ⟨h1, by simp [h1]⟩)
    · exact Or.inr (Or.inr ⟨h0, h1, by simp [h0, h1]⟩)

/-- One turn of the read loop that reaches a block. -/
theorem readLoop_succ (fuel : Nat) (r : SparseDiscReader) (remaining : Nat)
    (hg : ¬ (remaining = 0 ∨ r.disc_size ≤ r.pos ∨ r.block_size = 0)) :
    r.readLoop (fuel + 1) remaining
      = match r.readBlock (r.pos / r.block_size) (r.pos % r.block_size)
          (min (min (r.block_size - r.pos % r.block_size) remaining) (r.disc_size - r.pos)) with
        | none => ([], r)
        | some (data, access) =>
          if data.length
              < min (min (r.block_size - r.pos % r.block_size) remaining)
                  (r.disc_size - r.pos) then
            ([⟨r.pos, remaining, r.pos / r.block_size, data, access⟩],
             { r with pos := r.pos + data.length })
          else
            (⟨r.pos, remaining, r.pos / r.block_size, data, access⟩
              :: (SparseDiscReader.readLoop fuel { r with pos := r.pos + data.length }
                    (remaining - data.length)).1,
             (SparseDiscReader.readLoop fuel { r with pos := r.pos + data.length }
                    (remaining - data.length)).2) := by
  rw [SparseDiscReader.readLoop]
  simp only [hg, if_false]

theorem readLoop_stop (fuel : Nat) (r : SparseDiscReader) (remaining : Nat)
    (hg : remaining = 0 ∨ r.disc_size ≤ r.pos ∨ r.block_size = 0) :
    r.readLoop fuel remaining = ([], r) := by
  cases fuel with
  | zero => rfl
  | succ n =>
    rw [SparseDiscReader.readLoop]
    simp only [hg, if_true]

/-- The read loop changes nothing of the reader but the position, and the
position advances by the number of bytes produced. -/
theorem readLoop_reader (fuel : Nat) :
    ∀ (r : SparseDiscReader) (remaining : Nat),
      (r.readLoop fuel remaining).2
        = { r with pos := r.pos + (steps_data (r.readLoop fuel remaining).1).length } := by
  induction fuel with
  | zero => intro r remaining; rfl
  | succ n ih =>
    intro r remaining
    by_cases hg : remaining = 0 ∨ r.disc_size ≤ r.pos ∨ r.block_size = 0
    · rw [readLoop_stop _ _ _ hg]
      rfl
    · rw [readLoop_succ n r remaining hg]
      cases hrb : r.readBlock (r.pos / r.block_size) (r.pos % r.block_size)
          (min (min (r.block_size - r.pos % r.block_size) remaining) (r.disc_size - r.pos)) with
      | none => rfl
      | some res =>
        obtain ⟨data, access⟩ := res
        simp only
        split
        · simp [steps_data]
        · rw [ih]
          simp only [steps_data, List.length_append, Nat.add_assoc]

/-- Every block a read touches is the block of the position it was reached
at; a hole gives exactly the chunk of zero bytes and no backing-stream read;
a backing-stream read is made only for a block that is neither a hole nor
invalid, at its physical address plus the offset in the block. -/
theorem readLoop_steps (fuel : Nat) :
    ∀ (r : SparseDiscReader) (remaining : Nat) (s : BlockStep),
      s ∈ (r.readLoop fuel remaining).1 →
      s.blockIdx = s.pos / r.block_size
      ∧ (r.getPhysBlockAddr s.blockIdx = 0 →
          s.data = List.replicate
              (min (min (r.block_size - s.pos % r.block_size) s.remaining)
                (r.disc_size - s.pos)) 0
          ∧ s.access = none)
      ∧ (∀ a : Int × Nat, s.access = some a →
          r.getPhysBlockAddr s.blockIdx ≠ 0 ∧ r.getPhysBlockAddr s.blockIdx ≠ -1
          ∧ a.1 = r.getPhysBlockAddr s.blockIdx + ((s.pos % r.block_size : Nat) : Int)) := by
  induction fuel with
  | zero =>
    intro r remaining s hs
    simp [SparseDiscReader.readLoop] at hs
  | succ n ih =>
    intro r remaining s hs
    by_cases hg : remaining = 0 ∨ r.disc_size ≤ r.pos ∨ r.block_size = 0
    · rw [readLoop_stop _ _ _ hg] at hs
      simp at hs
    · rw [readLoop_succ n r remaining hg] at hs
      have hhere : ∀ (data : List Nat) (access : Option (Int × Nat)),
          r.readBlock (r.pos / r.block_size) (r.pos % r.block_size)
            (min (min (r.block_size - r.pos % r.block_size) remaining)
              (r.disc_size - r.pos)) = some (data, access) →
          s = ⟨r.pos, remaining, r.pos / r.block_size, data, access⟩ →
          s.blockIdx = s.pos / r.block_size
          ∧ (r.getPhysBlockAddr s.blockIdx = 0 →
              s.data = List.replicate
                  (min (min (r.block_size - s.pos % r.block_size) s.remaining)
                    (r.disc_size - s.pos)) 0
              ∧ s.access = none)
          ∧ (∀ a : Int × Nat, s.access = some a →
              r.getPhysBlockAddr s.blockIdx ≠ 0 ∧ r.getPhysBlockAddr s.blockIdx ≠ -1
              ∧ a.1 = r.getPhysBlockAddr s.blockIdx
                  + ((s.pos % r.block_size : Nat) : Int)) := by
        intro data access hrb hs2
        subst hs2
        simp only
        rcases readBlock_cases r (r.pos / r.block_size) (r.pos % r.block_size)
            (min (min (r.block_size - r.pos % r.block_size) remaining)
              (r.disc_size - r.pos)) with ⟨h0, hb⟩ | ⟨h1, hb⟩ | ⟨h0, h1, hb⟩
        · rw [hb] at hrb
          simp only [Option.some.injEq, Prod.mk.injEq] at hrb
          obtain ⟨hd, ha⟩ := hrb
          subst hd
          subst ha
          exact ⟨trivial, fun _ => ⟨rfl, rfl⟩, fun a h => by simp at h⟩
        · rw [hb] at hrb
          simp at hrb
        · rw [hb] at hrb
          simp only [Option.some.injEq, Prod.mk.injEq] at hrb
          obtain ⟨hd, ha⟩ := hrb
          subst hd
          subst ha
          refine ⟨trivial, fun h => absurd h h0, ?_⟩
          intro a h
          simp only [Option.some.injEq] at h
          subst h
          exact ⟨h0, h1, rfl⟩
      cases hrb : r.readBlock (r.pos / r.block_size) (r.pos % r.block_size)
          (min (min (r.block_size - r.pos % r.block_size) remaining) (r.disc_size - r.pos)) with
      | none =>
        rw [hrb] at hs
        simp at hs
      | some res =>
        obtain ⟨data, access⟩ := res
        rw [hrb] at hs
        simp only at hs
        split at hs
        · simp only [List.mem_singleton] at hs
          exact hhere data access hrb hs
        · simp only [List.mem_cons] at hs
          rcases hs with hs | hs
          · exact hhere data access hrb hs
          · exact ih { r with pos := r.pos + data.length } (remaining - data.length) s hs

/-- A read that starts before block `k`, whose index is invalid, and asks for
more bytes than lie before that block stops at the start of block `k`, when
the blocks in between are holes or mapped blocks whose backing-stream reads
are complete. -/
theorem readLoop_to_invalid_block (k : Nat) (fuel : Nat) :
    ∀ (r : SparseDiscReader) (remaining : Nat),
      remaining ≤ fuel → 0 < r.block_size → r.pos ≤ k * r.block_size →
      k * r.block_size - r.pos < remaining → k * r.block_size ≤ r.disc_size →
      r.getPhysBlockAddr k = -1 →
      (∀ b, r.pos / r.block_size ≤ b → b < k →
          r.getPhysBlockAddr b ≠ -1
          ∧ (r.getPhysBlockAddr b ≠ 0 → ∀ (off len : Nat), off + len ≤ r.block_size →
              len ≤ (r.file.seekAndRead (r.getPhysBlockAddr b + (off : Int)) len).length)) →
      (steps_data (r.readLoop fuel remaining).1).length = k * r.block_size - r.pos
      ∧ ∀ s ∈ (r.readLoop fuel remaining).1, s.blockIdx < k := by
  induction fuel with
  | zero =>
    intro r remaining hf _ _ hrem _ _ _
    omega
  | succ n ih =>
    intro r remaining hf hbs hle hrem hsize hk hgood
    by_cases hpos : r.pos = k * r.block_size
    · by_cases hend : r.disc_size ≤ r.pos
      · rw [readLoop_stop _ _ _ (Or.inr (Or.inl hend))]
        refine ⟨?_, by simp⟩
        simp only [steps_data, List.length_nil]
        omega
      · have hg : ¬ (remaining = 0 ∨ r.disc_size ≤ r.pos ∨ r.block_size = 0) := by omega
        rw [readLoop_succ n r remaining hg]
        have hq : r.pos / r.block_size = k := by
          rw [hpos]
          exact Nat.mul_div_cancel k hbs
        rcases readBlock_cases r (r.pos / r.block_size) (r.pos % r.block_size)
            (min (min (r.block_size - r.pos % r.block_size) remaining)
              (r.disc_size - r.pos)) with ⟨h0, _⟩ | ⟨_, hb⟩ | ⟨_, h1, _⟩
        · rw [hq, hk] at h0
          exact absurd h0 (by decide)
        · rw [hb]
          refine ⟨?_, by simp⟩
          simp only [steps_data, List.length_nil]
          omega
        · rw [hq] at h1
          exact absurd hk h1
    · have hlt : r.pos < k * r.block_size := by omega
      have hg : ¬ (remaining = 0 ∨ r.disc_size ≤ r.pos ∨ r.block_size = 0) := by omega
      have hdm : r.block_size * (r.pos / r.block_size) + r.pos % r.block_size = r.pos :=
        Nat.div_add_mod _ _
      have ho : r.pos % r.block_size < r.block_size := Nat.mod_lt _ hbs
      have hq : r.pos / r.block_size < k := (Nat.div_lt_iff_lt_mul hbs).2 hlt
      have hmul : (r.pos / r.block_size + 1) * r.block_size ≤ k * r.block_size :=
        Nat.mul_le_mul_right _ hq
      rw [Nat.succ_mul, Nat.mul_comm (r.pos / r.block_size) r.block_size] at hmul
      have hchunk : min (min (r.block_size - r.pos % r.block_size) remaining)
          (r.disc_size - r.pos) = r.block_size - r.pos % r.block_size := by
        omega
      obtain ⟨hvalid, hread⟩ := hgood (r.pos / r.block_size) (Nat.le_refl _) hq
      have hstep : ∃ (data : List Nat) (access : Option (Int × Nat)),
          r.readBlock (r.pos / r.block_size) (r.pos % r.block_size)
            (min (min (r.block_size - r.pos % r.block_size) remaining)
              (r.disc_size - r.pos)) = some (data, access)
          ∧ data.length = r.block_size - r.pos % r.block_size := by
        rcases readBlock_cases r (r.pos / r.block_size) (r.pos % r.block_size)
            (min (min (r.block_size - r.pos % r.block_size) remaining)
              (r.disc_size - r.pos)) with ⟨_, hb⟩ | ⟨h1, _⟩ | ⟨h0, _, hb⟩
        · exact ⟨_, _, hb, by rw [List.length_replicate, hchunk]⟩
        · exact absurd h1 hvalid
        · refine ⟨_, _, hb, ?_⟩
          have hfull := hread h0 (r.pos % r.block_size)
            (min (min (r.block_size - r.pos % r.block_size) remaining)
              (r.disc_size - r.pos)) (by omega)
          rw [List.length_take, Nat.min_eq_left hfull, hchunk]
      obtain ⟨data, access, hrb, hlen⟩ := hstep
      rw [readLoop_succ n r remaining hg, hrb]
      simp only [hchunk, hlen, Nat.lt_irrefl, if_false]
      have hrec := ih { r with pos := r.pos + (r.block_size - r.pos % r.block_size) }
        (remaining - (r.block_size - r.pos % r.block_size))
        (by omega) hbs (by simp only; omega) (by simp only; omega) hsize hk
        (by
          intro b hb1 hb2
          have hmono : r.pos / r.block_size
              ≤ (r.pos + (r.block_size - r.pos % r.block_size)) / r.block_size :=
            Nat.div_le_div_right (Nat.le_add_right _ _)
          exact hgood b (Nat.le_trans hmono hb1) hb2)
      obtain ⟨hl, hidx⟩ := hrec
      simp only at hl
      refine ⟨?_, ?_⟩
      · simp only [steps_data, List.length_append, hlen, hl]
        omega
      · intro s hs
        simp only [List.mem_cons] at hs
        rcases hs with hs | hs
        · rw [hs]
          exact hq
        · exact hidx s hs

/-! ## Claims on `SparseDiscReader` -/

/-- Counterexample for C17: with 8-byte blocks and logical size 10, a read of
8 bytes at position 8 of the hole block 1 produces 2 zero bytes, not
`min(8 - 0, 8) = 8`: the chunk is also bounded by the logical size. -/
theorem read_hole_chunk_clamped :
    hole_reader.getPhysBlockAddr 1 = 0
    ∧ (hole_reader.read 8).1 = [⟨8, 8, 1, [0, 0], none⟩]
    ∧ steps_data (hole_reader.read 8).1 = List.replicate 2 0
    ∧ steps_data (hole_reader.read 8).1 ≠ List.replicate (min (8 - 8 % 8) 8) 0 := by
  decide

/-- Claim C17 as amended: for every block a read touches whose
`getPhysBlockAddr` is 0, the bytes produced for the block are exactly `chunk`
zero bytes, where `chunk = min(blockSize - inBlockOffset, remaining bytes
requested, logical size - position)`, and no backing-stream read is made for
the block; where the chunk of the first two terms ends within the logical
size it is the number of zero bytes; every backing-stream read of the read
belongs to a block that is not a hole. -/
theorem read_hole_zero_fill (r : SparseDiscReader) (n : Nat) :
    (∀ s ∈ (r.read n).1, r.getPhysBlockAddr s.blockIdx = 0 →
        s.blockIdx = s.pos / r.block_size
        ∧ s.data = List.replicate
            (min (min (r.block_size - s.pos % r.block_size) s.remaining)
              (r.disc_size - s.pos)) 0
        ∧ s.access = none
        ∧ (s.pos + min (r.block_size - s.pos % r.block_size) s.remaining ≤ r.disc_size →
            s.data = List.replicate
              (min (r.block_size - s.pos % r.block_size) s.remaining) 0))
    ∧ (∀ a ∈ steps_accesses (r.read n).1,
        ∃ s ∈ (r.read n).1, s.access = some a ∧ r.getPhysBlockAddr s.blockIdx ≠ 0) := by
  refine ⟨?_, ?_⟩
  · intro s hs h0
    obtain ⟨hidx, hhole, _⟩ := readLoop_steps n r n s hs
    obtain ⟨hdata, hacc⟩ := hhole h0
    refine ⟨hidx, hdata, hacc, ?_⟩
    intro hin
    rw [hdata]
    congr 1
    omega
  · intro a ha
    unfold steps_accesses at ha
    rw [List.mem_filterMap] at ha
    obtain ⟨s, hs, hsa⟩ := ha
    exact ⟨s, hs, hsa, (readLoop_steps n r n s hs).2.2 a hsa |>.1⟩

/-- Witness for C17 as amended: the read of 10 bytes at position 2 touches the
hole block 1 at position 4 with 8 bytes still requested and produces 4 zero
bytes for it without a backing-stream read. -/
theorem read_hole_zero_fill_witness :
    (⟨4, 8, 1, [0, 0, 0, 0], none⟩ : BlockStep) ∈ (mapped_reader.read 10).1
    ∧ mapped_reader.getPhysBlockAddr 1 = 0
    ∧ (⟨4, 8, 1, [0, 0, 0, 0], none⟩ : BlockStep).data
        = List.replicate
            (min (min (mapped_reader.block_size - 4 % mapped_reader.block_size) 8)
              (mapped_reader.disc_size - 4)) 0 :=
  ⟨by decide, by decide,
   ((read_hole_zero_fill mapped_reader 10).1 ⟨4, 8, 1, [0, 0, 0, 0], none⟩
      (by decide) (by decide)).2.1⟩

/-- Counterexample for C18: block 0 is mapped (address 100), block 1 is
invalid and the read of 16 bytes at position 0 spans into block 1, but the
backing stream gives only 3 of the 8 bytes of block 0: the read returns 3
bytes and stops at position 3, not at the block boundary 8. -/
theorem read_short_before_invalid_block :
    truncated_reader.getPhysBlockAddr 0 = 100
    ∧ truncated_reader.getPhysBlockAddr 1 = -1
    ∧ truncated_reader.pos / truncated_reader.block_size < 1
    ∧ 1 * truncated_reader.block_size < truncated_reader.pos + 16
    ∧ steps_data (truncated_reader.read 16).1 = [1, 2, 3]
    ∧ (truncated_reader.read 16).2.pos = 3
    ∧ (truncated_reader.read 16).2.pos ≠ 1 * truncated_reader.block_size := by
  decide

/-- Claim C18 as amended: a read that starts in a block before block `k`,
whose `getPhysBlockAddr` is -1 and which starts within the logical size, and
that asks for bytes beyond the start of block `k` stops exactly at that
boundary, provided every block in between is mapped (not -1) and every
backing-stream read for such a block returns the bytes asked for: the read
returns exactly the bytes before the boundary, touches no block from `k` on,
and the position advances by exactly the count returned. -/
theorem read_stops_at_invalid_block (r : SparseDiscReader) (n k : Nat)
    (hbs : 0 < r.block_size)
    (hstart : r.pos / r.block_size < k)
    (hk : r.getPhysBlockAddr k = -1)
    (hspan : k * r.block_size < r.pos + n)
    (hsize : k * r.block_size ≤ r.disc_size)
    (hgood : ∀ b, r.pos / r.block_size ≤ b → b < k →
        r.getPhysBlockAddr b ≠ -1
        ∧ (r.getPhysBlockAddr b ≠ 0 → ∀ (off len : Nat), off + len ≤ r.block_size →
            len ≤ (r.file.seekAndRead (r.getPhysBlockAddr b + (off : Int)) len).length)) :
    (steps_data (r.read n).1).length = k * r.block_size - r.pos
    ∧ (r.read n).2.pos = k * r.block_size
    ∧ (r.read n).2.pos = r.pos + (steps_data (r.read n).1).length
    ∧ ∀ s ∈ (r.read n).1, s.blockIdx < k := by
  have hlt : r.pos < k * r.block_size := (Nat.div_lt_iff_lt_mul hbs).1 hstart
  obtain ⟨hlen, hidx⟩ := readLoop_to_invalid_block k n r n (Nat.le_refl _) hbs
    (Nat.le_of_lt hlt) (by omega) hsize hk hgood
  have hpos : (r.read n).2.pos = r.pos + (steps_data (r.read n).1).length := by
    unfold SparseDiscReader.read
    rw [readLoop_reader n r n]
  refine ⟨hlen, ?_, hpos, hidx⟩
  rw [hpos]
  unfold SparseDiscReader.read
  rw [hlen]
  omega

/-- Witness for C18 as amended: the read of 10 bytes at position 2 goes
through the mapped block 0 and the hole block 1 and stops at the start of the
invalid block 2: 6 bytes, position 8. -/
theorem read_stops_at_invalid_block_witness :
    (steps_data (mapped_reader.read 10).1).length = 2 * mapped_reader.block_size - mapped_reader.pos
    ∧ (mapped_reader.read 10).2.pos = 2 * mapped_reader.block_size
    ∧ steps_data (mapped_reader.read 10).1 = [12, 13, 0, 0, 0, 0] :=
  ⟨(read_stops_at_invalid_block mapped_reader 10 2 (by decide) (by decide) (by decide)
      (by decide) (by decide)
      (by
        intro b _ hb2
        have hb : b = 0 ∨ b = 1 := by omega
        rcases hb with hb | hb
        · subst hb
          refine ⟨by decide, ?_⟩
          intro _ off len hol
          have key : ∀ off : Nat, off < 5 → ∀ len : Nat, len < 5 → off + len ≤ 4 →
              len ≤ (mapped_reader.file.seekAndRead
                (mapped_reader.getPhysBlockAddr 0 + (off : Int)) len).length := by
            decide
          have hol4 : off + len ≤ 4 := hol
          exact key off (by omega) len (by omega) hol4
        · subst hb
          exact ⟨by decide, fun h => absurd rfl h⟩)).1,
   by decide, by decide⟩

/-- Claim C19: at a position at or after the logical size a read of any length
touches no block, returns 0 bytes, makes no backing-stream read and leaves
the reader, its position included, as it was. -/
theorem read_at_end (r : SparseDiscReader) (n : Nat) (h : r.disc_size ≤ r.pos) :
    r.read n = ([], r)
    ∧ (steps_data (r.read n).1).length = 0
    ∧ steps_accesses (r.read n).1 = []
    ∧ (r.read n).2.tell = r.tell := by
  have e : r.read n = ([], r) := readLoop_stop n r n (Or.inr (Or.inl h))
  rw [e]
  exact ⟨rfl, rfl, rfl, rfl⟩

/-- Witness for C19: after a seek to 40, beyond the logical size 16, a read of
3 bytes returns nothing and the position stays 40. -/
theorem read_at_end_witness :
    (mapped_reader.seek 40).2.disc_size ≤ (mapped_reader.seek 40).2.pos
    ∧ (steps_data ((mapped_reader.seek 40).2.read 3).1).length = 0
    ∧ ((mapped_reader.seek 40).2.read 3).2.tell = 40 :=
  ⟨by decide,
   (read_at_end (mapped_reader.seek 40).2 3 (by decide)).2.1,
   (read_at_end (mapped_reader.seek 40).2 3 (by decide)).2.2.2⟩

/-- Claim C20: `seek(pos)` fails - returns -1 and leaves the reader as it was -
exactly when `pos < 0`; for every `pos >= 0`, also beyond the logical size,
it returns 0 and a following `tell()` returns `pos`. -/
theorem seek_tell (r : SparseDiscReader) (pos : Int) :
    ((r.seek pos).1 = -1 ↔ pos < 0)
    ∧ (pos < 0 → r.seek pos = (-1, r) ∧ (r.seek pos).2.tell = r.tell)
    ∧ (0 ≤ pos → (r.seek pos).1 = 0 ∧ (r.seek pos).2.tell = pos) := by
  by_cases h : pos < 0
  · have e : r.seek pos = (-1, r) := by simp [SparseDiscReader.seek, h]
    rw [e]
    exact ⟨⟨fun _ => h, fun _ => rfl⟩, fun _ => ⟨rfl, rfl⟩, fun h0 => absurd h (by omega)⟩
  · have e : r.seek pos = (0, { r with pos := pos.toNat }) := by
      simp [SparseDiscReader.seek, h]
    rw [e]
    refine ⟨⟨fun h1 => by simp at h1, fun h1 => absurd h1 h⟩, fun h1 => absurd h1 h,
      fun h0 => ⟨rfl, ?_⟩⟩
    exact Int.toNat_of_nonneg h0

/-- Witness for C20: on the reader of logical size 16, a seek to 40 returns 0
and `tell` then gives 40; a seek to -1 returns -1 and `tell` still gives 2. -/
theorem seek_tell_witness :
    ((mapped_reader.seek 40).1 = 0 ∧ (mapped_reader.seek 40).2.tell = 40)
    ∧ ((mapped_reader.seek (-1)).1 = -1 ∧ (mapped_reader.seek (-1)).2.tell = 2) :=
  ⟨(seek_tell mapped_reader 40).2.2 (by decide),
   (seek_tell mapped_reader (-1)).1.2 (by decide),
   ((seek_tell mapped_reader (-1)).2.1 (by decide)).2⟩

/-- The fuel of the read loop is never the reason a read stops: any two
amounts of fuel of at least the number of bytes requested give the same
result. -/
theorem readLoop_fuel (f₁ : Nat) :
    ∀ (f₂ : Nat) (r : SparseDiscReader) (remaining : Nat),
      remaining ≤ f₁ → remaining ≤ f₂ →
      r.readLoop f₁ remaining = r.readLoop f₂ remaining := by
  induction f₁ with
  | zero =>
    intro f₂ r remaining h1 _
    have h0 : remaining = 0 := by omega
    rw [readLoop_stop 0 r remaining (Or.inl h0), readLoop_stop f₂ r remaining (Or.inl h0)]
  | succ n ih =>
    intro f₂ r remaining h1 h2
    by_cases hg : remaining = 0 ∨ r.disc_size ≤ r.pos ∨ r.block_size = 0
    · rw [readLoop_stop _ r remaining hg, readLoop_stop f₂ r remaining hg]
    · cases f₂ with
      | zero => omega
      | succ m =>
        rw [readLoop_succ n r remaining hg, readLoop_succ m r remaining hg]
        cases hrb : r.readBlock (r.pos / r.block_size) (r.pos % r.block_size)
            (min (min (r.block_size - r.pos % r.block_size) remaining)
              (r.disc_size - r.pos)) with
        | none => rfl
        | some res =>
          obtain ⟨data, access⟩ := res
          simp only
          split
          · rfl
          · rename_i hshort
            have ho : r.pos % r.block_size < r.block_size :=
              Nat.mod_lt _ (by omega)
            rw [ih m { r with pos := r.pos + data.length } (remaining - data.length)
              (by omega) (by omega)]

/-! ## Claims on the table epochs and the XGD3 pattern -/

/-- Claim C25: the epoch of every row of the XGD table is the Unix time of the
local date, time and UTC offset in the row's comment; 1000334575 is
2001-09-13 10:42:55 at +12:00, 1128716326 is 2005-10-07 12:18:46 at -08:00
and 1430092800 is 2015-04-26 17:00:00 at -07:00. -/
theorem xgd_tbl_epochs_match_comments :
    xgd_rows.map (·.btime) = xgd_tbl_comments.map CivilTime.unix_time
    ∧ CivilTime.unix_time ⟨2001, 9, 13, 10, 42, 55, 720⟩ = 1000334575
    ∧ CivilTime.unix_time ⟨2005, 10, 7, 12, 18, 46, -480⟩ = 1128716326
    ∧ CivilTime.unix_time ⟨2015, 4, 26, 17, 0, 0, -420⟩ = 1430092800
    ∧ pvd_time_to_unix_time (cstr "2001091310425500") (int8_of_byte 0x30) = 1000334575
    ∧ pvd_time_to_unix_time (cstr "2015042617000000") (int8_of_byte 0xE4) = 1430092800 := by
  decide

/-- A return value of 3 comes from the XGD3 loop. -/
theorem isRomSupported_static_three (pvdTime : PvdTimeDecoder)
    (pvd : ISO_Primary_Volume_Descriptor) (pWave : Option Nat)
    (h : (isRomSupported_static pvdTime (some pvd) pWave).1 = 3) :
    xgd3_scan (btime_tail9 pvd) xgd3_pvd_times = true := by
  unfold isRomSupported_static at h
  simp only at h
  split at h
  · simp at h
  · split at h
    · rename_i e he
      rw [xgd_tbl_eq_rows] at he
      have hm := (xgd_tbl_scan_some_mem_rows _ _ e he).1
      rcases xgd_rows_generation_wave e hm with ⟨hx, _⟩ | ⟨hx, _⟩ <;> simp [hx] at h
    · split at h
      · assumption
      · simp at h

/-- Of the nine windows the XGD3 loop compares, only the first has decimal
digits in its first eight bytes. -/
theorem xgd3_windows_digits :
    ∀ w ∈ xgd3_windows, (∀ b ∈ w.take 8, 48 ≤ b ∧ b ≤ 57) → w = xgd3_pattern_17 := by
  decide

/-- Counterexample for C26: the timestamp 2005-01-01 17:00:00.00 at -07:00 is
classified as XGD3 although its year is before 2011. -/
theorem isRomSupported_static_xgd3_year_2005 :
    decimal_field ((pvd_with_btime "2005010117000000" 0xE4).btime.full.take 4) = some 2005
    ∧ (isRomSupported_static pvd_time_to_unix_time
        (some (pvd_with_btime "2005010117000000" 0xE4)) (some 9)).1 = 3 := by
  decide

/-- Claim C26 as amended: a PVD classified as XGD3 whose sixteen timestamp text
bytes are there and whose time-of-day text `btime.full[8..15]` is made of
decimal digits has minutes, seconds and centiseconds 00 and hour and timezone
either 17 with -07:00 or 16 with -08:00 (offsets in minutes); the year is not
looked at. -/
theorem isRomSupported_static_xgd3_time_of_day (pvdTime : PvdTimeDecoder)
    (pvd : ISO_Primary_Volume_Descriptor) (pWave : Option Nat)
    (h3 : (isRomSupported_static pvdTime (some pvd) pWave).1 = 3)
    (hlen : pvd.btime.full.length = 16)
    (hdig : ∀ b ∈ pvd.btime.full.drop 8, 48 ≤ b ∧ b ≤ 57) :
    (pvd.btime.full.drop 8 = cstr "17000000"
      ∧ int8_of_byte pvd.btime.tz_offset * 15 = -420)
    ∨ (pvd.btime.full.drop 8 = cstr "16000000"
      ∧ int8_of_byte pvd.btime.tz_offset * 15 = -480) := by
  have hscan := isRomSupported_static_three pvdTime pvd pWave h3
  have hw := (xgd3_scan_iff_window _).1 hscan
  have hl8 : (pvd.btime.full.drop 8).length = 8 := by
    simp only [List.length_drop, hlen]
  have htail : btime_tail9 pvd = pvd.btime.full.drop 8 ++ [pvd.btime.tz_offset] := by
    unfold btime_tail9
    apply List.take_of_length_le
    simp only [List.length_append, List.length_singleton, hl8]
    omega
  have htake : (btime_tail9 pvd).take 8 = pvd.btime.full.drop 8 := by
    rw [htail]
    exact List.take_left' hl8
  have hdrop : (btime_tail9 pvd).drop 8 = [pvd.btime.tz_offset] := by
    rw [htail]
    exact List.drop_left' hl8
  have hp := xgd3_windows_digits _ hw (by rw [htake]; exact hdig)
  rw [hp] at htake hdrop
  left
  refine ⟨htake.symm.trans (by decide), ?_⟩
  have htz : pvd.btime.tz_offset = 0xE4 := by
    have h1 : [pvd.btime.tz_offset] = [0xE4] := hdrop.symm.trans (by decide)
    simpa using h1
  rw [htz]
  decide

/-- Witness for C26 as amended: 2012-01-01 17:00:00.00 at -07:00 is classified
as XGD3 and has the time of day 17:00:00.00 with offset -420 minutes. -/
theorem isRomSupported_static_xgd3_time_of_day_witness :
    (isRomSupported_static pvd_time_to_unix_time
        (some (pvd_with_btime "2012010117000000" 0xE4)) (some 9)).1 = 3
    ∧ ((pvd_with_btime "2012010117000000" 0xE4).btime.full.drop 8 = cstr "17000000"
        ∧ int8_of_byte (pvd_with_btime "2012010117000000" 0xE4).btime.tz_offset * 15 = -420
      ∨ (pvd_with_btime "2012010117000000" 0xE4).btime.full.drop 8 = cstr "16000000"
        ∧ int8_of_byte (pvd_with_btime "2012010117000000" 0xE4).btime.tz_offset * 15 = -480) :=
  ⟨by decide,
   isRomSupported_static_xgd3_time_of_day pvd_time_to_unix_time
     (pvd_with_btime "2012010117000000" 0xE4) (some 9) (by decide) (by decide) (by decide)⟩

/-! ## Claims on the header address and on the state after construction -/

/-- What the constructor leaves in the object is determined by the bytes of the
PVD read and the bytes of the read at the header address of the
classification. -/
theorem XboxDisc_reads (c : DiscConsts) (pvdTime : PvdTimeDecoder) (bigEndian : Bool)
    (f f' : IRpFile)
    (h1 : XboxDisc_pvdRead c f' = XboxDisc_pvdRead c f)
    (h2 : f'.seekAndRead (XboxDisc_hdrAddr c (XboxDisc_pvdType c pvdTime f))
            c.sizeof_xdvdfsHeader
          = f.seekAndRead (XboxDisc_hdrAddr c (XboxDisc_pvdType c pvdTime f))
            c.sizeof_xdvdfsHeader) :
    (XboxDisc c pvdTime bigEndian (some f')).summary
      = (XboxDisc c pvdTime bigEndian (some f)).summary := by
  unfold XboxDisc_hdrAddr XboxDisc_pvdType at h2
  unfold XboxDisc_pvdRead at h1 h2
  simp only [XboxDisc, XboxDiscPrivate.init, h1, h2, XboxDiscPrivate.summary]
  generalize isRomSupported_static pvdTime
    (some (pvd_of_bytes c (f.seekAndRead c.ISO_PVD_ADDRESS_2048 c.sizeof_pvd)))
    (some 0) = X
  generalize f.seekAndRead
    (xdvdfs_addr_of c X.1 + c.XDVDFS_HEADER_LBA_OFFSET * c.XDVDFS_BLOCK_SIZE)
    c.sizeof_xdvdfsHeader = B
  generalize f.seekAndRead c.ISO_PVD_ADDRESS_2048 c.sizeof_pvd = P
  by_cases hp : P.length = c.sizeof_pvd
  · by_cases hh : B.length = c.sizeof_xdvdfsHeader
    · by_cases hm : ¬ (XDVDFS_Header.ofBuffer c bigEndian
            (read_into c.sizeof_xdvdfsHeader B)).magic = c.XDVDFS_MAGIC
          ∨ ¬ (XDVDFS_Header.ofBuffer c bigEndian
            (read_into c.sizeof_xdvdfsHeader B)).magic_footer = c.XDVDFS_MAGIC
      · simp [hp, hh, hm]
      · cases bigEndian <;> by_cases hx : X.1 ≤ DISC_UNKNOWN <;> simp [hp, hh, hm, hx]
    · simp [hp, hh]
  · simp [hp]

/-- After a full PVD read the object holds the starting address of the
classification and a header loaded from the bytes read at the header
address. -/
theorem XboxDisc_addr_of_full_pvd (c : DiscConsts) (pvdTime : PvdTimeDecoder)
    (bigEndian : Bool) (f : IRpFile) (hp : (XboxDisc_pvdRead c f).length = c.sizeof_pvd) :
    (XboxDisc c pvdTime bigEndian (some f)).xdvdfs_addr
        = xdvdfs_addr_of c (XboxDisc_pvdType c pvdTime f)
    ∧ (XboxDisc c pvdTime bigEndian (some f)).xdvdfsHeader.magic
        = hdr_magic (read_into c.sizeof_xdvdfsHeader
            (f.seekAndRead (XboxDisc_hdrAddr c (XboxDisc_pvdType c pvdTime f))
              c.sizeof_xdvdfsHeader)) := by
  unfold XboxDisc_hdrAddr XboxDisc_pvdType hdr_magic
  unfold XboxDisc_pvdRead at hp ⊢
  simp only [XboxDisc, XboxDiscPrivate.init, hp, ne_eq, not_true_eq_false, if_false]
  generalize isRomSupported_static pvdTime
    (some (pvd_of_bytes c (f.seekAndRead c.ISO_PVD_ADDRESS_2048 c.sizeof_pvd)))
    (some 0) = X
  generalize f.seekAndRead
    (xdvdfs_addr_of c X.1 + c.XDVDFS_HEADER_LBA_OFFSET * c.XDVDFS_BLOCK_SIZE)
    c.sizeof_xdvdfsHeader = B
  by_cases hh : B.length = c.sizeof_xdvdfsHeader
  · by_cases hm : ¬ (XDVDFS_Header.ofBuffer c bigEndian
          (read_into c.sizeof_xdvdfsHeader B)).magic = c.XDVDFS_MAGIC
        ∨ ¬ (XDVDFS_Header.ofBuffer c bigEndian
          (read_into c.sizeof_xdvdfsHeader B)).magic_footer = c.XDVDFS_MAGIC
    · simp only [hh, hm, not_true_eq_false, if_true, if_false]
      exact ⟨trivial, rfl⟩
    · simp only [hh, hm, not_true_eq_false, if_false]
      cases bigEndian <;> by_cases hx : X.1 ≤ DISC_UNKNOWN <;>
        simp only [hx, if_true, if_false, Bool.false_eq_true] <;> exact ⟨trivial, rfl⟩
  · simp only [hh, not_false_eq_true, if_true]
    exact ⟨trivial, rfl⟩

/-- Claim C27: after a full PVD read the constructor reads the XDVDFS header at
byte offset `xdvdfs_addr + XDVDFS_HEADER_LBA_OFFSET * XDVDFS_BLOCK_SIZE`, where
`xdvdfs_addr` is `XDVDFS_LBA_OFFSET_XGDn * XDVDFS_BLOCK_SIZE` for a
classification `n` in 1, 2, 3 and 0 for every other result: the object is
determined by the PVD read and the read at that offset, its header is loaded
from the bytes read there, and the offset is a whole number of blocks that
depends on the PVD only through the classification. -/
theorem XboxDisc_header_address (c : DiscConsts) (pvdTime : PvdTimeDecoder)
    (bigEndian : Bool) (f : IRpFile) (hp : (XboxDisc_pvdRead c f).length = c.sizeof_pvd) :
    (XboxDisc c pvdTime bigEndian (some f)).xdvdfs_addr
        = (if XboxDisc_pvdType c pvdTime f = 1 then
            c.XDVDFS_LBA_OFFSET_XGD1 * c.XDVDFS_BLOCK_SIZE
          else if XboxDisc_pvdType c pvdTime f = 2 then
            c.XDVDFS_LBA_OFFSET_XGD2 * c.XDVDFS_BLOCK_SIZE
          else if XboxDisc_pvdType c pvdTime f = 3 then
            c.XDVDFS_LBA_OFFSET_XGD3 * c.XDVDFS_BLOCK_SIZE
          else 0)
    ∧ (XboxDisc c pvdTime bigEndian (some f)).xdvdfsHeader.magic
        = hdr_magic (read_into c.sizeof_xdvdfsHeader
            (f.seekAndRead
              ((XboxDisc c pvdTime bigEndian (some f)).xdvdfs_addr
                + c.XDVDFS_HEADER_LBA_OFFSET * c.XDVDFS_BLOCK_SIZE)
              c.sizeof_xdvdfsHeader))
    ∧ (∀ f' : IRpFile, XboxDisc_pvdRead c f' = XboxDisc_pvdRead c f →
        f'.seekAndRead
            ((XboxDisc c pvdTime bigEndian (some f)).xdvdfs_addr
              + c.XDVDFS_HEADER_LBA_OFFSET * c.XDVDFS_BLOCK_SIZE) c.sizeof_xdvdfsHeader
          = f.seekAndRead
            ((XboxDisc c pvdTime bigEndian (some f)).xdvdfs_addr
              + c.XDVDFS_HEADER_LBA_OFFSET * c.XDVDFS_BLOCK_SIZE) c.sizeof_xdvdfsHeader →
        (XboxDisc c pvdTime bigEndian (some f')).summary
          = (XboxDisc c pvdTime bigEndian (some f)).summary)
    ∧ (XboxDisc c pvdTime bigEndian (some f)).xdvdfs_addr
          + c.XDVDFS_HEADER_LBA_OFFSET * c.XDVDFS_BLOCK_SIZE
        = ((if XboxDisc_pvdType c pvdTime f = 1 then c.XDVDFS_LBA_OFFSET_XGD1
            else if XboxDisc_pvdType c pvdTime f = 2 then c.XDVDFS_LBA_OFFSET_XGD2
            else if XboxDisc_pvdType c pvdTime f = 3 then c.XDVDFS_LBA_OFFSET_XGD3
            else 0) + c.XDVDFS_HEADER_LBA_OFFSET) * c.XDVDFS_BLOCK_SIZE := by
  obtain ⟨haddr, hmagic⟩ := XboxDisc_addr_of_full_pvd c pvdTime bigEndian f hp
  have hof : xdvdfs_addr_of c (XboxDisc_pvdType c pvdTime f)
      = (if XboxDisc_pvdType c pvdTime f = 1 then
            c.XDVDFS_LBA_OFFSET_XGD1 * c.XDVDFS_BLOCK_SIZE
          else if XboxDisc_pvdType c pvdTime f = 2 then
            c.XDVDFS_LBA_OFFSET_XGD2 * c.XDVDFS_BLOCK_SIZE
          else if XboxDisc_pvdType c pvdTime f = 3 then
            c.XDVDFS_LBA_OFFSET_XGD3 * c.XDVDFS_BLOCK_SIZE
          else 0) := by
    simp only [xdvdfs_addr_of, DISC_TYPE_XGD1, DISC_TYPE_XGD2, DISC_TYPE_XGD3]
  refine ⟨haddr.trans hof, ?_, ?_, ?_⟩
  · rw [hmagic, haddr]
    rfl
  · intro f' h1 h2
    rw [haddr] at h2
    exact XboxDisc_reads c pvdTime bigEndian f f' h1 h2
  · rw [haddr, hof]
    split
    · ring
    · split
      · ring
      · split
        · ring
        · ring

/-- Witness for C27: the PVD of the XGD2 image classifies as generation 2 and
the object holds `xdvdfs_addr = 0x1FB20 * 2048`. -/
theorem XboxDisc_header_address_witness :
    XboxDisc_pvdType disc_consts pvd_time_to_unix_time xgd2_image = 2
    ∧ (XboxDisc disc_consts pvd_time_to_unix_time false (some xgd2_image)).xdvdfs_addr
        = 0x1FB20 * 2048 :=
  ⟨by decide!,
   ((XboxDisc_header_address disc_consts pvd_time_to_unix_time false xgd2_image
      (by decide!)).1).trans (by decide!)⟩

/-- The classification the constructor obtains is -1, 1, 2 or 3. -/
theorem XboxDisc_pvdType_range (c : DiscConsts) (pvdTime : PvdTimeDecoder) (f : IRpFile) :
    XboxDisc_pvdType c pvdTime f = -1 ∨ XboxDisc_pvdType c pvdTime f = 1
    ∨ XboxDisc_pvdType c pvdTime f = 2 ∨ XboxDisc_pvdType c pvdTime f = 3 := by
  unfold XboxDisc_pvdType
  rcases isRomSupported_static_cases pvdTime
      (some (pvd_of_bytes c (XboxDisc_pvdRead c f))) (some 0) with h | h | ⟨e, hm, h⟩
  · rw [h]
    exact Or.inl rfl
  · rw [h]
    exact Or.inr (Or.inr (Or.inr rfl))
  · rw [h]
    rcases xgd_rows_generation_wave e hm with ⟨hx, _⟩ | ⟨hx, _⟩
    · exact Or.inr (Or.inl (by simp [hx]))
    · exact Or.inr (Or.inr (Or.inl (by simp [hx])))

/-- The disc type of a valid object is 0, 1, 2 or 3. -/
theorem XboxDisc_valid_discType (c : DiscConsts) (pvdTime : PvdTimeDecoder)
    (bigEndian : Bool) (f : IRpFile)
    (hv : (XboxDisc c pvdTime bigEndian (some f)).isValid = true) :
    (XboxDisc c pvdTime bigEndian (some f)).discType = 0
    ∨ (XboxDisc c pvdTime bigEndian (some f)).discType = 1
    ∨ (XboxDisc c pvdTime bigEndian (some f)).discType = 2
    ∨ (XboxDisc c pvdTime bigEndian (some f)).discType = 3 := by
  rw [(XboxDisc_valid_state c pvdTime bigEndian f hv).2.2.2.2.2]
  rcases XboxDisc_pvdType_range c pvdTime f with h | h | h | h <;>
    simp [h, DISC_UNKNOWN, DISC_TYPE_EXTRACTED]

/-- The object the constructor returns holds no file, or is valid with a
non-negative disc type. -/
theorem XboxDisc_file_or_valid (c : DiscConsts) (pvdTime : PvdTimeDecoder)
    (bigEndian : Bool) (file : Option IRpFile) :
    (XboxDisc c pvdTime bigEndian file).file = none
    ∨ ((XboxDisc c pvdTime bigEndian file).isValid = true
        ∧ 0 ≤ (XboxDisc c pvdTime bigEndian file).discType) := by
  cases hv : (XboxDisc c pvdTime bigEndian file).isValid with
  | false => exact Or.inl (XboxDisc_not_valid_released c pvdTime bigEndian file hv)
  | true =>
    right
    refine ⟨rfl, ?_⟩
    cases file with
    | none => simp [XboxDisc, XboxDiscPrivate.init] at hv
    | some f =>
      rcases XboxDisc_valid_discType c pvdTime bigEndian f hv with h | h | h | h <;>
        rw [h] <;> decide

/-- A call of `loadFieldData` changes neither the file, nor the validity, nor
the disc type of the object. -/
theorem loadFieldData_frame (isoFields : IRpFile → Option (List RomField))
    (d : XboxDiscPrivate) :
    (loadFieldData isoFields d).2.file = d.file
    ∧ (loadFieldData isoFields d).2.isValid = d.isValid
    ∧ (loadFieldData isoFields d).2.discType = d.discType := by
  unfold loadFieldData
  split
  · exact ⟨rfl, rfl, rfl⟩
  · split
    · exact ⟨rfl, rfl, rfl⟩
    · split
      · exact ⟨rfl, rfl, rfl⟩
      · split
        · exact ⟨rfl, rfl, rfl⟩
        · rename_i f hf _ _
          exact ⟨rfl, rfl, rfl⟩

/-- On an object without a file, or valid with a non-negative disc type,
`loadFieldData` does not return `-EIO`. -/
theorem loadFieldData_not_EIO (isoFields : IRpFile → Option (List RomField))
    (d : XboxDiscPrivate)
    (h : d.file = none ∨ (d.isValid = true ∧ 0 ≤ d.discType)) :
    (loadFieldData isoFields d).1 ≠ - EIO := by
  unfold loadFieldData
  split
  · simp [ EIO]
  · split
    · simp [EBADF, EIO]
    · rename_i f hf
      split
      · simp [EBADF, EIO]
      · split
        · rename_i hbad
          rcases h with hn | ⟨hv, hd⟩
          · rw [hn] at hf
            simp at hf
          · rcases hbad with hb | hb
            · exact absurd hv hb
            · omega
        · simp only [ EIO, ne_eq]
          omega

/-- Claim C28: when the constructor returns, the object holds a file exactly
when it is valid, a valid object has disc type 0, 1, 2 or 3, and
`loadFieldData` on the object, at the first call and at every later call,
does not return `-EIO`. -/
theorem XboxDisc_file_iff_valid (c : DiscConsts) (pvdTime : PvdTimeDecoder)
    (bigEndian : Bool) (file : Option IRpFile)
    (isoFields : IRpFile → Option (List RomField)) :
    ((XboxDisc c pvdTime bigEndian file).file.isSome = true
        ↔ (XboxDisc c pvdTime bigEndian file).isValid = true)
    ∧ ((XboxDisc c pvdTime bigEndian file).isValid = true →
        (XboxDisc c pvdTime bigEndian file).discType = 0
        ∨ (XboxDisc c pvdTime bigEndian file).discType = 1
        ∨ (XboxDisc c pvdTime bigEndian file).discType = 2
        ∨ (XboxDisc c pvdTime bigEndian file).discType = 3)
    ∧ ∀ k : Nat,
        (loadFieldData isoFields
          (loadFieldData_repeat isoFields k (XboxDisc c pvdTime bigEndian file))).1 ≠ - EIO := by
  have hinv := XboxDisc_file_or_valid c pvdTime bigEndian file
  refine ⟨?_, ?_, ?_⟩
  · constructor
    · intro hs
      rcases hinv with hn | ⟨hv, _⟩
      · rw [hn] at hs
        simp at hs
      · exact hv
    · intro hv
      cases file with
      | none => simp [XboxDisc, XboxDiscPrivate.init] at hv
      | some f =>
        rw [(XboxDisc_valid_state c pvdTime bigEndian f hv).2.2.1]
        rfl
  · intro hv
    cases file with
    | none => simp [XboxDisc, XboxDiscPrivate.init] at hv
    | some f => exact XboxDisc_valid_discType c pvdTime bigEndian f hv
  · intro k
    apply loadFieldData_not_EIO
    have hk : ∀ (k : Nat) (d : XboxDiscPrivate),
        (d.file = none ∨ (d.isValid = true ∧ 0 ≤ d.discType)) →
        ((loadFieldData_repeat isoFields k d).file = none
          ∨ ((loadFieldData_repeat isoFields k d).isValid = true
              ∧ 0 ≤ (loadFieldData_repeat isoFields k d).discType)) := by
      intro k
      induction k with
      | zero => intro d h; exact h
      | succ n ih =>
        intro d h
        apply ih
        obtain ⟨h1, h2, h3⟩ := loadFieldData_frame isoFields d
        rw [h1, h2, h3]
        exact h
    exact hk k _ hinv

/-- Witness for C28 on the sample XGD2 image: the object is valid, holds the
file, and its disc type is one of the four allowed values. -/
theorem XboxDisc_file_iff_valid_witness :
    (XboxDisc disc_consts pvd_time_to_unix_time false (some xgd2_image)).isValid = true
    ∧ ((XboxDisc disc_consts pvd_time_to_unix_time false (some xgd2_image)).discType = 0
      ∨ (XboxDisc disc_consts pvd_time_to_unix_time false (some xgd2_image)).discType = 1
      ∨ (XboxDisc disc_consts pvd_time_to_unix_time false (some xgd2_image)).discType = 2
      ∨ (XboxDisc disc_consts pvd_time_to_unix_time false (some xgd2_image)).discType = 3) :=
  ⟨by decide!,
   (XboxDisc_file_iff_valid disc_consts pvd_time_to_unix_time false (some xgd2_image)
      (fun _ => none)).2.1 (by decide!)⟩

/-! ## SNES ROM header -/

/-- Exclusive-or with the all-ones 16-bit word is the 16-bit complement. -/
theorem xor_ffff (x : Nat) (hx : x < 0x10000) : x ^^^ 0xFFFF = 0xFFFF - x := by
  apply Nat.eq_of_testBit_eq
  intro i
  have h1 : (0xFFFF : Nat) = 2 ^ 16 - 1 := by norm_num
  have h2 : (0xFFFF : Nat) - x = 2 ^ 16 - (x + 1) := by omega
  have hx2 : x < 2 ^ 16 := by omega
  rw [Nat.testBit_xor, h2, Nat.testBit_two_pow_sub_succ hx2, h1, Nat.testBit_two_pow_sub_one]
  by_cases hi : i < 16
  · simp [hi]
  · have hlt : x < 2 ^ i :=
      lt_of_lt_of_le hx2 (Nat.pow_le_pow_right (by decide) (by omega))
    simp [hi, Nat.testBit_eq_false_of_lt hlt]

/-- Claim C21: for a 16-bit checksum the header check accepts exactly when
checksum XOR checksum_complement is 0xFFFF, which is exactly when the
complement is 0xFFFF minus the checksum; 0x1234 with 0xEDCB is accepted, 0x1234
with 0xEDCA is rejected, also when the values are read from a header image. -/
theorem snes_checksum_valid_iff (checksum checksum_complement : Nat)
    (hck : checksum < 0x10000) :
    (snes_checksum_valid checksum checksum_complement = true
        ↔ checksum ^^^ checksum_complement = 0xFFFF)
    ∧ (snes_checksum_valid checksum checksum_complement = true
        ↔ checksum_complement = 0xFFFF - checksum)
    ∧ snes_checksum_valid 0x1234 0xEDCB = true
    ∧ snes_checksum_valid 0x1234 0xEDCA = false
    ∧ SNES_RomHeader.checksum_valid (snes_header_with 0x1234 0xEDCB) = true
    ∧ SNES_RomHeader.checksum_valid (snes_header_with 0x1234 0xEDCA) = false := by
  have hiff : snes_checksum_valid checksum checksum_complement = true
      ↔ checksum ^^^ checksum_complement = 0xFFFF := by
    simp [snes_checksum_valid]
  refine ⟨hiff, ?_, by decide, by decide, by decide, by decide⟩
  rw [hiff]
  constructor
  · intro h
    have h2 : checksum ^^^ (checksum ^^^ checksum_complement) = checksum ^^^ 0xFFFF := by
      rw [h]
    rw [Nat.xor_cancel_left] at h2
    rw [h2]
    exact xor_ffff checksum hck
  · intro h
    rw [h, ← xor_ffff checksum hck, Nat.xor_cancel_left]

/-- Witness for C21 at checksum 0x1234 and complement 0xEDCB. -/
theorem snes_checksum_valid_iff_witness :
    (snes_checksum_valid 0x1234 0xEDCB = true ↔ 0xEDCB = 0xFFFF - 0x1234) :=
  (snes_checksum_valid_iff 0x1234 0xEDCB (by decide)).2.1

/-- Claim C22: the packed record SNES_RomHeader is 80 bytes, each of the two
layouts of its union 48 bytes and each vector table 16 bytes; each of the 45
commented members lies at its commented address relative to base 0x7FB0; and
the members common to both layouts have the same offset in both. -/
theorem SNES_RomHeader_layout :
    SNES_RomHeader.sizeof = 80
    ∧ SNES_RomHeader_snes.sizeof = 48
    ∧ SNES_RomHeader_bsx.sizeof = 48
    ∧ SNES_RomHeader_native.sizeof = 16
    ∧ SNES_RomHeader_emulation.sizeof = 16
    ∧ SNES_RomHeader.comments_hold SNES_HEADER_BASE = true
    ∧ SNES_RomHeader.commented = 45
    ∧ SNES_RomHeader.offsetof "snes.ext.new_publisher_code" = some 0
    ∧ SNES_RomHeader.offsetof "bsx.ext.new_publisher_code" = some 0
    ∧ SNES_RomHeader.offsetof "snes.old_publisher_code" = some (0x7FDA - 0x7FB0)
    ∧ SNES_RomHeader.offsetof "bsx.old_publisher_code" = some (0x7FDA - 0x7FB0)
    ∧ SNES_RomHeader.offsetof "snes.checksum_complement" = some (0x7FDC - 0x7FB0)
    ∧ SNES_RomHeader.offsetof "bsx.checksum_complement" = some (0x7FDC - 0x7FB0)
    ∧ SNES_RomHeader.offsetof "snes.checksum" = some (0x7FDE - 0x7FB0)
    ∧ SNES_RomHeader.offsetof "bsx.checksum" = some (0x7FDE - 0x7FB0)
    ∧ SNES_RomHeader.offsetof "vectors.native.reserved" = some 48
    ∧ SNES_RomHeader.offsetof "vectors.emulation.reserved1" = some 64
    ∧ SNES_RomHeader.offsetof "vectors.emulation.irq"
        = SNES_RomHeader.offsetof "vectors.emulation.brk" := by
  decide

end LibRomData
